import Mathlib

/-!
Verification of the SemesterFlow schedule generator (`src/utils/dateUtils.ts`,
`src/types.ts`).  The repository ships two variants of the utilities in one
file, separated by a document marker: a simpler variant (here suffixed `A`,
lines 1-504) and a richer variant (suffixed `B`, lines 505-947).  Dates are
embedded as serial day numbers (days since 1970-01-01, the epoch of the
JavaScript `Date`); the date-fns helpers `addDays`, `isAfter`, `isBefore`,
`isSameDay` and `differenceInDays` become `+`, `<`, `<`, `=` and `-` on
serials, and `format(d, 'yyyy-MM-dd')` becomes civil-calendar rendering of the
serial.  JavaScript's `Math.floor(a/b)` on numbers is `Int.fdiv` and `%` is
`Int.tmod`.  Fallible library calls (date-fns `format` throws a RangeError on
an invalid `Date`) are embedded in `Except`.
-/

namespace SemesterFlow

/-- JS `a || b` for a possibly-undefined string `a`: `undefined` and the empty
string are falsy. -/
def jsOrStr : Option String → String → String
  | some s, dflt => if s = "" then dflt else s
  | none, dflt => dflt

/-- JS `a || b` where both operands are possibly-undefined strings. -/
def jsOrOpt : Option String → Option String → Option String
  | some s, dflt => if s = "" then dflt else some s
  | none, dflt => dflt

/-- Gregorian leap-year test. -/
def isLeapYear (y : Int) : Bool :=
  (y % 4 == 0 && y % 100 != 0) || y % 400 == 0

/-- Number of days in a month of the proleptic Gregorian calendar. -/
def daysInMonth (y : Int) (m : Nat) : Nat :=
  if m = 1 then 31
  else if m = 2 then (if isLeapYear y then 29 else 28)
  else if m = 3 then 31
  else if m = 4 then 30
  else if m = 5 then 31
  else if m = 6 then 30
  else if m = 7 then 31
  else if m = 8 then 31
  else if m = 9 then 30
  else if m = 10 then 31
  else if m = 11 then 30
  else 31

/-- Serial day number (days since 1970-01-01) of a civil date, by the standard
era-decomposition algorithm. -/
def daysFromCivil (y : Int) (m d : Nat) : Int :=
  let y' : Int := if m ≤ 2 then y - 1 else y
  let era : Int := y'.fdiv 400
  let yoe : Nat := (y' - era * 400).toNat
  let doy : Nat := (153 * (if 2 < m then m - 3 else m + 9) + 2) / 5 + d - 1
  let doe : Nat := yoe * 365 + yoe / 4 - yoe / 100 + doy
  era * 146097 + (doe : Int) - 719468

/-- Civil date (year, month, day) of a serial day number; inverse of
`daysFromCivil`. -/
def civilFromDays (serial : Int) : Int × Nat × Nat :=
  let z := serial + 719468
  let era : Int := z.fdiv 146097
  let doe : Nat := (z - era * 146097).toNat
  let yoe : Nat := (doe - doe / 1460 + doe / 36524 - doe / 146096) / 365
  let y : Int := (yoe : Int) + era * 400
  let doy : Nat := doe - (365 * yoe + yoe / 4 - yoe / 100)
  let mp : Nat := (5 * doy + 2) / 153
  let d : Nat := doy - (153 * mp + 2) / 5 + 1
  let m : Nat := if mp < 10 then mp + 3 else mp - 9
  (if m ≤ 2 then y + 1 else y, m, d)

/-- Zero-pad a number to two digits. -/
def pad2 (n : Nat) : String :=
  if n < 10 then "0" ++ toString n else toString n

/-- Zero-pad a number to four digits, as date-fns `yyyy` does. -/
def pad4 (n : Nat) : String :=
  if n < 10 then "000" ++ toString n
  else if n < 100 then "00" ++ toString n
  else if n < 1000 then "0" ++ toString n
  else toString n

/-- The `format(date, 'yyyy-MM-dd')` rendering of a (valid) date, on serials.
Both variants' `formatDate` reduce to this on valid dates. -/
def formatDate (serial : Int) : String :=
  let c := civilFromDays serial
  (if c.1 < 0 then toString c.1 else pad4 c.1.toNat) ++ "-" ++ pad2 c.2.1 ++ "-" ++ pad2 c.2.2

/-- Weekday names indexed from Sunday, as produced by `format(date, 'EEEE')`. -/
def dayNames : List String :=
  ["Sunday", "Monday", "Tuesday", "Wednesday", "Thursday", "Friday", "Saturday"]

/-- The `format(date, 'EEEE')` weekday name of a serial day (serial 0 =
1970-01-01 was a Thursday). -/
def getDayName (serial : Int) : String :=
  (dayNames.get? ((serial % 7 + 4) % 7).toNat).getD "Monday"

/-- Numeric value of a decimal digit character. -/
def digitVal (c : Char) : Option Nat :=
  if c.isDigit then some (c.toNat - 48) else none

/-- Modelled library function: date-fns `parseISO`, restricted to the
`YYYY-MM-DD` date-only grammar used throughout this repository (templates
and the import and holiday tables all use that shape).  A string that is not
a valid
calendar date in that shape is treated as unparsable (`none`, i.e. an Invalid
Date). -/
def parseISO (s : String) : Option Int :=
  match s.data with
  | [y1, y2, y3, y4, s1, m1, m2, s2, d1, d2] =>
    if s1 = '-' ∧ s2 = '-' then
      match digitVal y1, digitVal y2, digitVal y3, digitVal y4,
            digitVal m1, digitVal m2, digitVal d1, digitVal d2 with
      | some a, some b, some c, some d, some e, some f, some g, some h =>
        let y : Int := Int.ofNat (a * 1000 + b * 100 + c * 10 + d)
        let m := e * 10 + f
        let dd := g * 10 + h
        if 1 ≤ m ∧ m ≤ 12 ∧ 1 ≤ dd ∧ dd ≤ daysInMonth y m then
          some (daysFromCivil y m dd)
        else none
      | _, _, _, _, _, _, _, _ => none
    else none
  | _ => none

/-- date-fns `addYears` on serials (clamps Feb 29 to Feb 28 when the target
year is not a leap year). -/
def addYearsSerial (serial : Int) (n : Int) : Int :=
  let c := civilFromDays serial
  let y' := c.1 + n
  daysFromCivil y' c.2.1 (min c.2.2 (daysInMonth y' c.2.1))

/-- Variant A `formatDate` (dateUtils.ts line 6): `format(date, 'yyyy-MM-dd')`
directly.  date-fns `format` throws a `RangeError: Invalid time value` when
the `Date` is invalid, so the invalid input (`none`) lands in `Except.error`. -/
def formatDateA (date : Option Int) : Except String String :=
  match date with
  | some serial => Except.ok (formatDate serial)
  | none => Except.error "Invalid time value"

/-- Input type of variant B `formatDate` (`Date | string`); an invalid `Date`
is `date none`. -/
inductive DateInput where
  | date (d : Option Int)
  | str (s : String)
deriving DecidableEq

/-- The `typeof date === 'string' ? parseISO(date) : date` resolution step of
variant B `formatDate`/`getDayName`. -/
def resolveDateInput : DateInput → Option Int
  | .date d => d
  | .str s => parseISO s

/-- Variant B `formatDate` (dateUtils.ts lines 509-513): parses string input,
returns the sentinel "0000-00-00" when the result is invalid, and never
throws. -/
def formatDateB (date : DateInput) : String :=
  match resolveDateInput date with
  | none => "0000-00-00"
  | some serial => formatDate serial

/-! ## Data model (`src/types.ts`)

Weekday names, statuses keyed by strings in the source, keep their string
form where the source uses strings; the closed status/kind unions become
inductive types.  The richer variant's `ScheduleRow`/`Subject` fields are a
superset of the simpler variant's, so a single structure serves both: variant
A simply never sets the extra fields (they stay `none`). -/

structure ModuleConfig where
  id : String
  name : String
  startLU : Nat
  endLU : Nat
  color : String
deriving DecidableEq

structure Subject where
  id : String
  name : String
  color : String
  totalLUs : Nat
  modules : List ModuleConfig
  courseId : Option String
  mentorId : Option String
  defaultLuId : Option String
  luIdMap : List (Nat × String)
  courseIdMap : List (Nat × String)
deriving DecidableEq

structure SlotDefinition where
  id : String
  label : String
  startTime : String
  endTime : String
deriving DecidableEq

structure Holiday where
  id : String
  date : String
  reason : String
deriving DecidableEq

structure CAConfig where
  id : String
  label : String
  weekOrder : Nat
  duration : Nat
  eventDays : Nat
deriving DecidableEq

/-- `WeeklyPattern`: weekday name → slot id → subject id (absent entries are
`none`, as `config.weeklyPattern[day]?.[slotId]` yields `undefined`). -/
def WeeklyPattern := String → String → Option String

structure SemesterConfig where
  startDate : String
  endDate : String
  name : String
  squadNumber : String
  workingDays : List String
  slots : List SlotDefinition
  subjects : List Subject
  weeklyPattern : WeeklyPattern
  holidays : List Holiday
  cas : List CAConfig

inductive Status where
  | working
  | holiday
  | weekend
  | blocked
  | ca
  | event
deriving DecidableEq

inductive SlotType where
  | subject
  | ca
  | event
  | empty
deriving DecidableEq

structure SlotMapping where
  type : SlotType
  label : String
  color : Option String
  subjectId : Option String
  luNumber : Option Nat
  courseId : Option String
deriving DecidableEq

/-- One Day Record.  `slotMappings` is kept as an association list in the
order the source builds it (one entry per configured slot, in slot-definition
order). -/
structure ScheduleRow where
  date : String
  dayName : String
  weekNumber : Int
  dayInWeek : Int
  phaseId : Option String
  status : Status
  reason : String
  slotMappings : List (String × SlotMapping)
deriving DecidableEq

/-- The per-run LU counter table (`subjectLUCounters`), keyed by subject id;
absent keys read as 0 (`subjectLUCounters[id] || 0`). -/
def Counters := String → Nat

/-- Classification handed to the day materializer by the assembler. -/
inductive DayType where
  | normal
  | ca
  | event
deriving DecidableEq

/-- The `new Set(config.holidays.map(h => h.date))` membership list. -/
def holidaySet (cfg : SemesterConfig) : List String :=
  cfg.holidays.map (·.date)

/-- The `new Map(config.holidays.map(h => [h.date, h.reason]))` lookup: a JS
`Map` built from entries keeps the last entry for a duplicated key. -/
def holidayMapGet (cfg : SemesterConfig) (d : String) : Option String :=
  (cfg.holidays.reverse.find? (fun h => h.date == d)).map (·.reason)

/-- The mapping `{ type: 'empty', label: '' }`. -/
def emptySlot : SlotMapping :=
  { type := .empty, label := "", color := none, subjectId := none,
    luNumber := none, courseId := none }

/-- The mapping `{ type: 'ca', label: 'ASSESSMENT' }`. -/
def caSlot : SlotMapping :=
  { type := .ca, label := "ASSESSMENT", color := none, subjectId := none,
    luNumber := none, courseId := none }

/-- The mapping `{ type: 'event', label: 'EVENT' }`. -/
def eventSlot : SlotMapping :=
  { type := .event, label := "EVENT", color := none, subjectId := none,
    luNumber := none, courseId := none }

/-! ## Variant A generator (`generateMasterSchedule`, dateUtils.ts lines 228-346) -/

/-- Iteration ceiling `MAX_DAYS` of variant A. -/
def MAXDAYS : Nat := 5000

/-- Variant A slot content for a tracked subject (`totalLUs > 0`) at counter
value `currentLU` (dateUtils.ts lines 274-287): an LU-numbered occupancy with
the covering module's color while `currentLU <= totalLUs`, and afterwards the
"completed" overflow occupancy with the fixed grey color, which consults
neither the module list nor any id map. -/
def trackedSlotA (sub : Subject) (currentLU : Nat) : SlotMapping :=
  if currentLU ≤ sub.totalLUs then
    let activeModule := sub.modules.find? (fun m => m.startLU ≤ currentLU && currentLU ≤ m.endLU)
    { type := .subject, label := sub.name ++ " - LU " ++ toString currentLU,
      color := some (match activeModule with | some m => m.color | none => sub.color),
      subjectId := none, luNumber := none, courseId := none }
  else
    { type := .subject, label := sub.name ++ " - completed", color := some "#94a3b8",
      subjectId := none, luNumber := none, courseId := none }

/-- Variant A resolution of one slot of an ordinary working day (dateUtils.ts
lines 267-297): weekly-pattern lookup, subject lookup, LU counting. -/
def workingSlotA (cfg : SemesterConfig) (dayName slotId : String) (ctr : Counters) :
    SlotMapping × Counters :=
  match cfg.weeklyPattern dayName slotId with
  | none => (emptySlot, ctr)
  | some subjectId =>
    match cfg.subjects.find? (fun s => s.id == subjectId) with
    | none => (emptySlot, ctr)
    | some subject =>
      if 0 < subject.totalLUs then
        let newCount := ctr subjectId + 1
        (trackedSlotA subject newCount,
         fun k => if k = subjectId then newCount else ctr k)
      else
        ({ type := .subject, label := subject.name, color := some subject.color,
           subjectId := none, luNumber := none, courseId := none }, ctr)

/-- Variant A `config.slots.forEach` body building `slotMappings`
(dateUtils.ts lines 261-301), threading the LU counters. -/
def processSlotsA (cfg : SemesterConfig) (dayName : String) (status : Status) :
    List SlotDefinition → Counters → List (String × SlotMapping) × Counters
  | [], ctr => ([], ctr)
  | slot :: rest, ctr =>
    let step : SlotMapping × Counters :=
      if status = Status.ca then (caSlot, ctr)
      else if status = Status.event then (eventSlot, ctr)
      else if status = Status.working then workingSlotA cfg dayName slot.id ctr
      else (emptySlot, ctr)
    let tail := processSlotsA cfg dayName status rest step.2
    ((slot.id, step.1) :: tail.1, tail.2)

/-- The Day Record built by variant A `addDayToSchedule` (dateUtils.ts lines
241-305) once past its end-of-term guard, together with the updated counters. -/
def mkDayA (cfg : SemesterConfig) (anchor : Int) (ctr : Counters) (date : Int)
    (ty : DayType) (caRef : Option CAConfig) : ScheduleRow × Counters :=
  let dateStr := formatDate date
  let dayName := getDayName date
  let diffFromStart := date - anchor
  let isHoliday := (holidaySet cfg).contains dateStr
  let isWorkingDayConfig := cfg.workingDays.contains dayName
  let statusReason : Status × String :=
    if isHoliday then (.holiday, jsOrStr (holidayMapGet cfg dateStr) "Holiday")
    else if !isWorkingDayConfig then (.weekend, "Rest Day")
    else if ty = .ca then (.ca, jsOrStr (caRef.map (·.label)) "Assessment")
    else if ty = .event then (.event, "Event (" ++ (caRef.map (·.label)).getD "undefined" ++ ")")
    else (.working, "")
  let slots := processSlotsA cfg dayName statusReason.1 cfg.slots ctr
  ({ date := dateStr, dayName := dayName,
     weekNumber := diffFromStart.fdiv 7 + 1, dayInWeek := diffFromStart.tmod 7 + 1,
     phaseId := none, status := statusReason.1, reason := statusReason.2,
     slotMappings := slots.1 }, slots.2)

/-- Variant A `addDayToSchedule`: returns `none` (the source's `return false`)
past the term end, otherwise the new row and counters. -/
def addDayToScheduleA (cfg : SemesterConfig) (endS anchor : Int) (ctr : Counters)
    (date : Int) (ty : DayType) (caRef : Option CAConfig) :
    Option (ScheduleRow × Counters) :=
  if endS < date then none
  else some (mkDayA cfg anchor ctr date ty caRef)

/-- Variant A `isWorking`: active weekday and not a holiday. -/
def isWorkingA (cfg : SemesterConfig) (date : Int) : Bool :=
  cfg.workingDays.contains (getDayName date) && !((holidaySet cfg).contains (formatDate date))

/-- JS `arr.slice(-n)`: the last `n` elements — except that `slice(-0)` is
`slice(0)`, the whole array (the hazard variant B's comment calls out). -/
def jsSliceNeg (l : List Int) (n : Nat) : List Int :=
  if n = 0 then l else l.drop (l.length - n)

/-- Variant A inner day loop of one phase (dateUtils.ts lines 329-337):
`while (!isAfter(d, lastDateToFill) && safetyCounter < MAX_DAYS)`.  The fuel
argument only bounds the recursion; every top-level call supplies
`MAXDAYS + 1 - safety`, which the `safety < MAXDAYS` test keeps from ever
running out before the loop's own conditions stop it. -/
def fillA (cfg : SemesterConfig) (endS anchor lastFill : Int) (ca : CAConfig)
    (caDates eventDates : List Int) :
    Nat → Int → Nat → Counters → List ScheduleRow × Int × Nat × Counters
  | 0, d, safety, ctr => ([], d, safety, ctr)
  | fuel + 1, d, safety, ctr =>
    if d ≤ lastFill ∧ safety < MAXDAYS then
      let isCA := caDates.contains d
      let isEvent := eventDates.contains d
      let ty : DayType := if isCA then .ca else if isEvent then .event else .normal
      match addDayToScheduleA cfg endS anchor ctr d ty (some ca) with
      | none => ([], d, safety, ctr)
      | some rowCtr =>
        let rest := fillA cfg endS anchor lastFill ca caDates eventDates fuel
          (d + 1) (safety + 1) rowCtr.2
        (rowCtr.1 :: rest.1, rest.2)
    else ([], d, safety, ctr)

/-- The candidate dates of variant A's phase window (dateUtils.ts lines
318-323): up to `weekOrder * 7` consecutive days from the cursor, stopping at
the term end. -/
def phaseDatesA (endS cursor : Int) (ca : CAConfig) : List Int :=
  ((List.range (ca.weekOrder * 7)).map (fun (i : Nat) => cursor + (i : Int))).takeWhile
    (fun d => decide (d ≤ endS))

/-- Variant A per-phase planning (dateUtils.ts lines 318-328): the assessment
dates, the event dates, and `lastDateToFill`.  `eventDates` comes from
`workingInPhase.slice(-ca.eventDays)`, so a phase with `eventDays = 0` gets
the whole working-day window as its event-date list. -/
def phasePlanA (cfg : SemesterConfig) (endS cursor : Int) (ca : CAConfig) :
    List Int × List Int × Int :=
  let phaseDates := phaseDatesA endS cursor ca
  let workingInPhase := phaseDates.filter (fun d => isWorkingA cfg d)
  let totalBlockNeeded := ca.duration + ca.eventDays
  let caDates := (jsSliceNeg workingInPhase totalBlockNeeded).take ca.duration
  let eventDates := jsSliceNeg workingInPhase ca.eventDays
  let lastDateToFill := match phaseDates.getLast? with
    | some x => x
    | none => cursor
  (caDates, eventDates, lastDateToFill)

/-- Variant A `for (const ca of config.cas)` phase loop (dateUtils.ts lines
316-339), threading cursor, safety counter and LU counters. -/
def phasesA (cfg : SemesterConfig) (endS anchor : Int) :
    List CAConfig → Int → Nat → Counters → List ScheduleRow × Int × Nat × Counters
  | [], cursor, safety, ctr => ([], cursor, safety, ctr)
  | ca :: rest, cursor, safety, ctr =>
    if MAXDAYS < safety then ([], cursor, safety, ctr)
    else
      let plan := phasePlanA cfg endS cursor ca
      let filled := fillA cfg endS anchor plan.2.2 ca plan.1 plan.2.1
        (MAXDAYS + 1 - safety) cursor safety ctr
      let tail := phasesA cfg endS anchor rest filled.2.1 filled.2.2.1 filled.2.2.2
      (filled.1 ++ tail.1, tail.2)

/-- Variant A trailing fill loop (dateUtils.ts lines 340-344):
`while ((isBefore(d, end) || isSameDay(d, end)) && safetyCounter < MAX_DAYS)`. -/
def tailFillA (cfg : SemesterConfig) (endS anchor : Int) :
    Nat → Int → Nat → Counters → List ScheduleRow
  | 0, _, _, _ => []
  | fuel + 1, d, safety, ctr =>
    if d ≤ endS ∧ safety < MAXDAYS then
      match addDayToScheduleA cfg endS anchor ctr d DayType.normal none with
      | none => []
      | some rowCtr =>
        rowCtr.1 :: tailFillA cfg endS anchor fuel (d + 1) (safety + 1) rowCtr.2
    else []

/-- Variant A `generateMasterSchedule` (dateUtils.ts lines 228-346).  Note
that the source's day-span guard is `isAfter(start, addYears(start, 5))` —
comparing the start date against itself shifted, not the end date — which is
vacuously false. -/
def generateMasterScheduleA (cfg : SemesterConfig) : List ScheduleRow :=
  if cfg.startDate = "" ∨ cfg.endDate = "" then []
  else
    match parseISO cfg.startDate, parseISO cfg.endDate with
    | some start, some endS =>
      if endS < start then []
      else if addYearsSerial start 5 < start then []
      else
        let phased := phasesA cfg endS start cfg.cas start 0 (fun _ => 0)
        phased.1 ++ tailFillA cfg endS start (MAXDAYS + 1 - phased.2.2.1)
          phased.2.1 phased.2.2.1 phased.2.2.2
    | _, _ => []

/-! ## Variant B generator (`generateMasterSchedule`, dateUtils.ts lines 650-766) -/

/-- Lookup in a `Record<number, string>` id map (`sub.courseIdMap?.[n]`). -/
def lookupNatMap (m : List (Nat × String)) (n : Nat) : Option String :=
  (m.find? (fun p => p.1 == n)).map (·.2)

/-- Variant B slot content for a tracked subject at counter value `currentLU`
(dateUtils.ts lines 686-699): while `currentLU <= totalLUs` an LU occupancy
carrying the LU number and the course id resolved through the per-LU map
(`sub.courseIdMap?.[currentLU] || sub.courseId`); afterwards the "completed"
overflow occupancy with fixed grey color and only the subject's default
course id — no module or per-LU lookup. -/
def trackedSlotB (sub : Subject) (currentLU : Nat) : SlotMapping :=
  if currentLU ≤ sub.totalLUs then
    let activeMod := sub.modules.find? (fun m => m.startLU ≤ currentLU && currentLU ≤ m.endLU)
    { type := .subject, label := sub.name ++ " - LU " ++ toString currentLU,
      color := some (jsOrStr (activeMod.map (·.color)) sub.color),
      subjectId := some sub.id, luNumber := some currentLU,
      courseId := jsOrOpt (lookupNatMap sub.courseIdMap currentLU) sub.courseId }
  else
    { type := .subject, label := sub.name ++ " - completed", color := some "#94a3b8",
      subjectId := some sub.id, luNumber := none, courseId := sub.courseId }

/-- Variant B resolution of one slot of an ordinary working day (dateUtils.ts
lines 680-703). -/
def workingSlotB (cfg : SemesterConfig) (dayName slotId : String) (ctr : Counters) :
    SlotMapping × Counters :=
  match cfg.weeklyPattern dayName slotId with
  | none => (emptySlot, ctr)
  | some subId =>
    match cfg.subjects.find? (fun s => s.id == subId) with
    | none => (emptySlot, ctr)
    | some sub =>
      if 0 < sub.totalLUs then
        let currentLU := ctr subId + 1
        (trackedSlotB sub currentLU,
         fun k => if k = subId then currentLU else ctr k)
      else
        ({ type := .subject, label := sub.name, color := some sub.color,
           subjectId := some sub.id, luNumber := none, courseId := sub.courseId }, ctr)

/-- Variant B `config.slots.forEach` body (dateUtils.ts lines 676-705). -/
def processSlotsB (cfg : SemesterConfig) (dayName : String) (status : Status) :
    List SlotDefinition → Counters → List (String × SlotMapping) × Counters
  | [], ctr => ([], ctr)
  | slot :: rest, ctr =>
    let step : SlotMapping × Counters :=
      if status = Status.ca then (caSlot, ctr)
      else if status = Status.event then (eventSlot, ctr)
      else if status = Status.working then workingSlotB cfg dayName slot.id ctr
      else (emptySlot, ctr)
    let tail := processSlotsB cfg dayName status rest step.2
    ((slot.id, step.1) :: tail.1, tail.2)

/-- Variant B `addDay` (dateUtils.ts lines 661-708): same precedence chain as
variant A but with no end-of-term guard, a `phaseId` tag, and the richer slot
mappings. -/
def mkDayB (cfg : SemesterConfig) (anchor : Int) (ctr : Counters) (date : Int)
    (ty : DayType) (phaseId : Option String) (caRef : Option CAConfig) :
    ScheduleRow × Counters :=
  let dateStr := formatDate date
  let dayName := getDayName date
  let diff := date - anchor
  let isHoliday := (holidaySet cfg).contains dateStr
  let isWorkingDay := cfg.workingDays.contains dayName
  let statusReason : Status × String :=
    if isHoliday then (.holiday, jsOrStr (holidayMapGet cfg dateStr) "Holiday")
    else if !isWorkingDay then (.weekend, "Rest Day")
    else if ty = .ca then (.ca, jsOrStr (caRef.map (·.label)) "Assessment")
    else if ty = .event then (.event, "Event (" ++ (caRef.map (·.label)).getD "undefined" ++ ")")
    else (.working, "")
  let slots := processSlotsB cfg dayName statusReason.1 cfg.slots ctr
  ({ date := dateStr, dayName := dayName,
     weekNumber := diff.fdiv 7 + 1, dayInWeek := diff.tmod 7 + 1,
     phaseId := phaseId, status := statusReason.1, reason := statusReason.2,
     slotMappings := slots.1 }, slots.2)

/-- Variant B `isActuallyWorking`. -/
def isWorkingB (cfg : SemesterConfig) (d : Int) : Bool :=
  cfg.workingDays.contains (getDayName d) && !((holidaySet cfg).contains (formatDate d))

/-- Variant B enumeration `for (d = cursor; isBefore(d, limit) && !isAfter(d, end); d++)`
used to collect the phase's working days. -/
def scanDaysB (cursor limit endS : Int) : List Int :=
  (List.range ((min (limit - 1) endS + 1 - cursor).toNat)).map
    (fun (i : Nat) => cursor + (i : Int))

/-- Variant B day loop over one phase window (dateUtils.ts lines 749-754),
with fuel supplied as the exact iteration bound `(limit - cursor).toNat`. -/
def dayLoopB (cfg : SemesterConfig) (endS anchor limit : Int) (ca : CAConfig)
    (caDates eventDates : List Int) :
    Nat → Int → Counters → List ScheduleRow × Counters
  | 0, _, ctr => ([], ctr)
  | fuel + 1, d, ctr =>
    if d < limit ∧ d ≤ endS then
      let isCA := caDates.contains d
      let isEvent := eventDates.contains d
      let ty : DayType := if isCA then .ca else if isEvent then .event else .normal
      let rowCtr := mkDayB cfg anchor ctr d ty (some ca.id) (some ca)
      let rest := dayLoopB cfg endS anchor limit ca caDates eventDates fuel (d + 1) rowCtr.2
      (rowCtr.1 :: rest.1, rest.2)
    else ([], ctr)

/-- Variant B window end for one phase (dateUtils.ts lines 716-720):
`cursor + (weekOrder || 1) weeks`, clamped to the term end. -/
def phaseLimitB (endS cursor : Int) (ca : CAConfig) : Int :=
  let relativeWeeks := if ca.weekOrder = 0 then 1 else ca.weekOrder
  let phaseLimit0 := cursor + ((relativeWeeks * 7 : Nat) : Int)
  if endS < phaseLimit0 then endS else phaseLimit0

/-- Variant B block slicing (dateUtils.ts lines 727-746) over the working
days of the window: the last `duration + eventDays` working days split into
assessment then event days when they fit, otherwise assessment days first and
event days from the remainder only.  Every slice count is guarded against
zero ("Correctly handle slices to avoid slice(-0)"). -/
def phaseSlicesB (workingDaysInPhase : List Int) (ca : CAConfig) :
    List Int × List Int :=
  let caCount := ca.duration
  let eventCount := ca.eventDays
  let totalBlock := caCount + eventCount
  if 0 < totalBlock ∧ totalBlock ≤ workingDaysInPhase.length then
    let blockDates := workingDaysInPhase.drop (workingDaysInPhase.length - totalBlock)
    ((if 0 < caCount then blockDates.take caCount else []),
     (if 0 < eventCount then blockDates.drop (blockDates.length - eventCount) else []))
  else if 0 < totalBlock then
    let caD := workingDaysInPhase.take caCount
    let remaining := workingDaysInPhase.length - caD.length
    (caD,
     if 0 < remaining ∧ 0 < eventCount then
       (workingDaysInPhase.drop caD.length).take eventCount
     else [])
  else ([], [])

/-- Variant B per-phase planning: working days of the window, then the
assessment/event slices. -/
def phasePlanB (cfg : SemesterConfig) (endS cursor : Int) (ca : CAConfig) :
    List Int × List Int :=
  phaseSlicesB ((scanDaysB cursor (phaseLimitB endS cursor ca) endS).filter
    (fun d => isWorkingB cfg d)) ca

/-- Variant B phase loop (dateUtils.ts lines 715-758). -/
def phasesB (cfg : SemesterConfig) (endS anchor : Int) :
    List CAConfig → Int → Counters → List ScheduleRow × Int × Counters
  | [], cursor, ctr => ([], cursor, ctr)
  | ca :: rest, cursor, ctr =>
    let phaseLimit := phaseLimitB endS cursor ca
    let sliced := phasePlanB cfg endS cursor ca
    let looped := dayLoopB cfg endS anchor phaseLimit ca sliced.1 sliced.2
      (phaseLimit - cursor).toNat cursor ctr
    if endS < phaseLimit then (looped.1, phaseLimit, looped.2)
    else
      let tail := phasesB cfg endS anchor rest phaseLimit looped.2
      (looped.1 ++ tail.1, tail.2)

/-- Variant B trailing fill (dateUtils.ts lines 761-763), phase tag
`'post-ca-phase'`, fuel supplied as the exact bound `(endS + 1 - cursor).toNat`. -/
def tailFillB (cfg : SemesterConfig) (endS anchor : Int) :
    Nat → Int → Counters → List ScheduleRow
  | 0, _, _ => []
  | fuel + 1, d, ctr =>
    if d ≤ endS then
      let rowCtr := mkDayB cfg anchor ctr d DayType.normal (some "post-ca-phase") none
      rowCtr.1 :: tailFillB cfg endS anchor fuel (d + 1) rowCtr.2
    else []

/-- Variant B `generateMasterSchedule` (dateUtils.ts lines 650-766).  Unlike
variant A it has no `isAfter(start, end)` guard and no span guard at all. -/
def generateMasterScheduleB (cfg : SemesterConfig) : List ScheduleRow :=
  if cfg.startDate = "" ∨ cfg.endDate = "" then []
  else
    match parseISO cfg.startDate, parseISO cfg.endDate with
    | some start, some endS =>
      let phased := phasesB cfg endS start cfg.cas start (fun _ => 0)
      phased.1 ++ tailFillB cfg endS start (endS + 1 - phased.2.1).toNat phased.2.1 phased.2.2
    | _, _ => []

/-! ## Statistics (`calculateProgramStats`, `calculateUtilizationStats`) -/

/-- Modelled library function: JS `String.prototype.endsWith`, as a suffix
test on the character lists. -/
def strEndsWith (s t : String) : Bool :=
  t.data.isSuffixOf s.data

structure ProgramStatsA where
  totalDays : Nat
  sundays : Nat
  holidays : Nat
  assessmentDays : Nat
  eventDays : Nat
  workingDays : Nat
  learningDays : Nat
deriving DecidableEq

/-- Variant A `calculateProgramStats` (dateUtils.ts lines 61-86).  Note:
its learning-day test is only `m.type === 'subject'`, with no overflow
exclusion. -/
def calculateProgramStatsA (schedule : List ScheduleRow) : ProgramStatsA :=
  schedule.foldl
    (fun stats row =>
      let stats := if row.dayName = "Sunday" then { stats with sundays := stats.sundays + 1 } else stats
      let stats := if row.status = .holiday then { stats with holidays := stats.holidays + 1 } else stats
      let stats := if row.status = .ca then { stats with assessmentDays := stats.assessmentDays + 1 } else stats
      let stats := if row.status = .event then { stats with eventDays := stats.eventDays + 1 } else stats
      if row.status = .working then
        let stats := { stats with workingDays := stats.workingDays + 1 }
        if (row.slotMappings.map Prod.snd).any (fun m => m.type == SlotType.subject) then
          { stats with learningDays := stats.learningDays + 1 }
        else stats
      else stats)
    { totalDays := schedule.length, sundays := 0, holidays := 0, assessmentDays := 0,
      eventDays := 0, workingDays := 0, learningDays := 0 }

structure ProgramStatsB where
  totalDays : Nat
  restSaturdays : Nat
  restSundays : Nat
  restDaysTotal : Nat
  holidays : Nat
  assessmentDays : Nat
  eventDays : Nat
  workingDays : Nat
  learningDays : Nat
deriving DecidableEq

/-- Variant B `calculateProgramStats` (dateUtils.ts lines 564-594); its
learning-day test excludes " - completed" overflow occupancies. -/
def calculateProgramStatsB (schedule : List ScheduleRow) : ProgramStatsB :=
  schedule.foldl
    (fun stats row =>
      let stats :=
        if row.status = .weekend then
          let stats := { stats with restDaysTotal := stats.restDaysTotal + 1 }
          let stats := if row.dayName = "Saturday" then { stats with restSaturdays := stats.restSaturdays + 1 } else stats
          if row.dayName = "Sunday" then { stats with restSundays := stats.restSundays + 1 } else stats
        else stats
      let stats := if row.status = .holiday then { stats with holidays := stats.holidays + 1 } else stats
      let stats := if row.status = .ca then { stats with assessmentDays := stats.assessmentDays + 1 } else stats
      let stats := if row.status = .event then { stats with eventDays := stats.eventDays + 1 } else stats
      if row.status = .working then
        let stats := { stats with workingDays := stats.workingDays + 1 }
        if (row.slotMappings.map Prod.snd).any
            (fun m => m.type == SlotType.subject && !(strEndsWith m.label " - completed")) then
          { stats with learningDays := stats.learningDays + 1 }
        else stats
      else stats)
    { totalDays := schedule.length, restSaturdays := 0, restSundays := 0, restDaysTotal := 0,
      holidays := 0, assessmentDays := 0, eventDays := 0, workingDays := 0, learningDays := 0 }

structure UtilizationStatsA where
  subjectName : String
  availableSlots : Nat
  utilizedSlots : Nat
  unutilizedSlots : Int
deriving DecidableEq

/-- The available/utilized tally shared by both variants' utilization
reducers: on every working day, every slot whose weekly-pattern entry names
the subject counts as available, and as utilized when the realized mapping is
a non-"completed" subject occupancy. -/
def utilizationTally (cfg : SemesterConfig) (subjectId : String)
    (schedule : List ScheduleRow) : Nat × Nat :=
  schedule.foldl
    (fun acc row =>
      if row.status = .working then
        row.slotMappings.foldl
          (fun acc p =>
            if cfg.weeklyPattern row.dayName p.1 == some subjectId then
              (acc.1 + 1,
               if p.2.type == SlotType.subject && !(strEndsWith p.2.label " - completed") then
                 acc.2 + 1
               else acc.2)
            else acc)
          acc
      else acc)
    (0, 0)

/-- Variant A `calculateUtilizationStats` (dateUtils.ts lines 88-120): all
subjects, with untracked subjects (totalLUs = 0) reported as fully utilized;
`unutilized = Math.max(0, available - utilized)`. -/
def calculateUtilizationStatsA (cfg : SemesterConfig) (schedule : List ScheduleRow) :
    List UtilizationStatsA :=
  cfg.subjects.map (fun subject =>
    let tally := utilizationTally cfg subject.id schedule
    let availableSlots := tally.1
    let utilizedSlots := if subject.totalLUs = 0 then availableSlots else tally.2
    { subjectName := subject.name, availableSlots := availableSlots,
      utilizedSlots := utilizedSlots,
      unutilizedSlots := max 0 ((availableSlots : Int) - (utilizedSlots : Int)) })

structure UtilizationStatsB where
  subjectName : String
  totalTargetLUs : Nat
  availableSlots : Nat
  utilizedSlots : Nat
  unutilizedSlots : Int
deriving DecidableEq

/-- Variant B `calculateUtilizationStats` (dateUtils.ts lines 596-620):
LU-tracked subjects only. -/
def calculateUtilizationStatsB (cfg : SemesterConfig) (schedule : List ScheduleRow) :
    List UtilizationStatsB :=
  (cfg.subjects.filter (fun s => 0 < s.totalLUs)).map (fun subject =>
    let tally := utilizationTally cfg subject.id schedule
    { subjectName := subject.name, totalTargetLUs := subject.totalLUs,
      availableSlots := tally.1, utilizedSlots := tally.2,
      unutilizedSlots := max 0 ((tally.1 : Int) - (tally.2 : Int)) })

/-- The learning-day count as the spec words it: working days having at least
one subject occupancy that is not a " - completed" overflow marker. -/
def learningDaysSpec (schedule : List ScheduleRow) : Nat :=
  schedule.countP (fun row =>
    row.status == Status.working &&
    (row.slotMappings.map Prod.snd).any
      (fun m => m.type == SlotType.subject && !(strEndsWith m.label " - completed")))

/-- A working day whose only subject occupancy is a " - completed" overflow
marker. -/
def overflowOnlyRow : ScheduleRow :=
  { date := "2025-01-06", dayName := "Monday", weekNumber := 1, dayInWeek := 1,
    phaseId := none, status := .working, reason := "",
    slotMappings := [("slot1",
      { type := .subject, label := "Math - completed", color := some "#94a3b8",
        subjectId := none, luNumber := none, courseId := none })] }

/-! ## Concrete configurations -/

/-- A one-week term (Mon 2025-01-06 .. Fri 2025-01-10, Mon–Fri working, no
slots, subjects or holidays) with a single phase of `duration = 2` assessment
days and `eventDays = 0`. -/
def cfgZeroEvents : SemesterConfig :=
  { startDate := "2025-01-06", endDate := "2025-01-10", name := "S", squadNumber := "1",
    workingDays := ["Monday", "Tuesday", "Wednesday", "Thursday", "Friday"],
    slots := [], subjects := [], weeklyPattern := fun _ _ => none, holidays := [],
    cas := [{ id := "ca1", label := "CA 1", weekOrder := 1, duration := 2, eventDays := 0 }] }

/-- A one-week term (Mon 2025-02-03 .. Fri 2025-02-07) with a single phase of
`duration = 1`, `eventDays = 0`: the block is one assessment day. -/
def cfgOneBlock : SemesterConfig :=
  { startDate := "2025-02-03", endDate := "2025-02-07", name := "S", squadNumber := "1",
    workingDays := ["Monday", "Tuesday", "Wednesday", "Thursday", "Friday"],
    slots := [], subjects := [], weeklyPattern := fun _ _ => none, holidays := [],
    cas := [{ id := "ca1", label := "CA 1", weekOrder := 1, duration := 1, eventDays := 0 }] }

/-- A degenerate configuration whose start date (Fri 2025-01-10) is after its
end date (Mon 2025-01-06). -/
def cfgStartAfterEnd : SemesterConfig :=
  { startDate := "2025-01-10", endDate := "2025-01-06", name := "S", squadNumber := "1",
    workingDays := ["Monday", "Tuesday", "Wednesday", "Thursday", "Friday"],
    slots := [], subjects := [], weeklyPattern := fun _ _ => none, holidays := [],
    cas := [{ id := "ca1", label := "CA 1", weekOrder := 1, duration := 1, eventDays := 1 }] }

/-- A term spanning just over six years (2025-01-06 .. 2031-01-10), well past
the five-year limit the spec describes. -/
def cfgSixYears : SemesterConfig :=
  { startDate := "2025-01-06", endDate := "2031-01-10", name := "S", squadNumber := "1",
    workingDays := ["Monday", "Tuesday", "Wednesday", "Thursday", "Friday"],
    slots := [], subjects := [], weeklyPattern := fun _ _ => none, holidays := [],
    cas := [{ id := "ca1", label := "CA 1", weekOrder := 1, duration := 2, eventDays := 0 }] }

/-- A plain one-week term (Mon 2025-01-06 .. Fri 2025-01-10) with no phases,
no holidays and no pattern. -/
def cfgInterval : SemesterConfig :=
  { startDate := "2025-01-06", endDate := "2025-01-10", name := "S", squadNumber := "1",
    workingDays := ["Monday", "Tuesday", "Wednesday", "Thursday", "Friday"],
    slots := [], subjects := [], weeklyPattern := fun _ _ => none, holidays := [],
    cas := [] }

/-- A two-week term (Mon 2025-01-06 .. Fri 2025-01-17) with one phase, for
exercising the continuous week numbering across a phase boundary. -/
def cfgWeeks : SemesterConfig :=
  { startDate := "2025-01-06", endDate := "2025-01-17", name := "S", squadNumber := "1",
    workingDays := ["Monday", "Tuesday", "Wednesday", "Thursday", "Friday"],
    slots := [], subjects := [], weeklyPattern := fun _ _ => none, holidays := [],
    cas := [{ id := "ca1", label := "CA 1", weekOrder := 1, duration := 1, eventDays := 1 }] }

/-- A three-day term whose middle day (Tue 2025-01-07) is the holiday
"Festival", with one configured slot. -/
def cfgHoliday : SemesterConfig :=
  { startDate := "2025-01-06", endDate := "2025-01-08", name := "S", squadNumber := "1",
    workingDays := ["Monday", "Tuesday", "Wednesday", "Thursday", "Friday"],
    slots := [{ id := "slot1", label := "P1", startTime := "09:00", endTime := "10:00" }],
    subjects := [], weeklyPattern := fun _ _ => none,
    holidays := [{ id := "h1", date := "2025-01-07", reason := "Festival" }],
    cas := [] }

/-- The holiday Day Record variant A generates for 2025-01-07 under
`cfgHoliday`. -/
def rowHoliday : ScheduleRow :=
  { date := "2025-01-07", dayName := "Tuesday", weekNumber := 1, dayInWeek := 2,
    phaseId := none, status := .holiday, reason := "Festival",
    slotMappings := [("slot1", emptySlot)] }

/-- A subject with two tracked learning units, met every Monday in the one
configured slot. -/
def subLU : Subject :=
  { id := "s1", name := "Math", color := "#ff0000", totalLUs := 2, modules := [],
    courseId := none, mentorId := none, defaultLuId := none, luIdMap := [],
    courseIdMap := [] }

/-- A three-Monday term (2025-01-06 .. 2025-01-20) scheduling `subLU` each
Monday in slot "slot1": occupancies LU 1, LU 2, then one overflow. -/
def cfgLU : SemesterConfig :=
  { startDate := "2025-01-06", endDate := "2025-01-20", name := "S", squadNumber := "1",
    workingDays := ["Monday", "Tuesday", "Wednesday", "Thursday", "Friday"],
    slots := [{ id := "slot1", label := "P1", startTime := "09:00", endTime := "10:00" }],
    subjects := [subLU],
    weeklyPattern := fun day slot =>
      if day = "Monday" ∧ slot = "slot1" then some "s1" else none,
    holidays := [], cas := [] }

/-- The rows of a chunk beginning at serial `d0` carry, at offset `j`, the
date of day `d0 + j` and the continuous week numbering of that day relative
to `anchor`. -/
def RowStamped (anchor d0 : Int) (rows : List ScheduleRow) : Prop :=
  ∀ j (h : j < rows.length),
    (rows.get ⟨j, h⟩).date = formatDate (d0 + j) ∧
    (rows.get ⟨j, h⟩).weekNumber = (d0 + j - anchor).fdiv 7 + 1 ∧
    (rows.get ⟨j, h⟩).dayInWeek = (d0 + j - anchor).tmod 7 + 1

/-- The serial days of the closed interval `[a, b]`, in ascending order. -/
def dateRange (a b : Int) : List Int :=
  (List.range (b + 1 - a).toNat).map (fun (i : Nat) => a + (i : Int))

/-- The subject-occupied working slots of a schedule for subject id `sid`, in
chronological row order and slot-definition order within each row, as variant
A identifies them: slots of working rows whose weekly-pattern entry for the
row's weekday names `sid`. -/
def occsA (cfg : SemesterConfig) (sid : String) (rows : List ScheduleRow) :
    List SlotMapping :=
  rows.flatMap (fun r =>
    if r.status = Status.working then
      (r.slotMappings.filter (fun p => cfg.weeklyPattern r.dayName p.1 == some sid)).map
        Prod.snd
    else [])

/-- The subject occupancies of a schedule for subject id `sid` as variant B
tags them: slot mappings of kind `subject` carrying that `subjectId`. -/
def occsB (sid : String) (rows : List ScheduleRow) : List SlotMapping :=
  rows.flatMap (fun r =>
    (r.slotMappings.map Prod.snd).filter
      (fun m => m.type == SlotType.subject && m.subjectId == some sid))

/-- The expected run of variant A tracked-slot contents for counter values
`c+1, ..., c'`. -/
def occRangeA (s : Subject) (c c' : Nat) : List SlotMapping :=
  (List.range (c' - c)).map (fun j => trackedSlotA s (c + j + 1))

/-- The expected run of variant B tracked-slot contents for counter values
`c+1, ..., c'`. -/
def occRangeB (s : Subject) (c c' : Nat) : List SlotMapping :=
  (List.range (c' - c)).map (fun j => trackedSlotB s (c + j + 1))

/-! ## Produced rows: every Day Record comes from the day materializer -/

/-- A row that variant A's materializer can produce. -/
def RowFromA (cfg : SemesterConfig) (row : ScheduleRow) : Prop :=
  ∃ anchor ctr d ty caRef, row = (mkDayA cfg anchor ctr d ty caRef).1

/-- A row that variant B's materializer can produce. -/
def RowFromB (cfg : SemesterConfig) (row : ScheduleRow) : Prop :=
  ∃ anchor ctr d ty phaseId caRef, row = (mkDayB cfg anchor ctr d ty phaseId caRef).1

lemma addDayA_of_le (cfg : SemesterConfig) (endS anchor : Int) (ctr : Counters)
    (d : Int) (ty : DayType) (caRef : Option CAConfig) (h : ¬ endS < d) :
    addDayToScheduleA cfg endS anchor ctr d ty caRef =
      some (mkDayA cfg anchor ctr d ty caRef) := by
  simp [addDayToScheduleA, h]

lemma rowFromA_of_mem_fillA (cfg : SemesterConfig) (endS anchor lastFill : Int)
    (ca : CAConfig) (caD evD : List Int) :
    ∀ fuel d safety ctr row,
      row ∈ (fillA cfg endS anchor lastFill ca caD evD fuel d safety ctr).1 →
      RowFromA cfg row := by
  intro fuel
  induction fuel with
  | zero => intro d safety ctr row h; simp [fillA] at h
  | succ n ih =>
    intro d safety ctr row h
    simp only [fillA] at h
    split at h
    · split at h
      · simp at h
      · next rowCtr hA =>
          simp only [List.mem_cons] at h
          rcases h with h | h
          · rw [addDayToScheduleA] at hA
            split at hA
            · exact absurd hA (by simp)
            · exact ⟨anchor, ctr, d, _, some ca, by rw [h, ← Option.some_inj.mp hA]⟩
          · exact ih _ _ _ _ h
    · simp at h

lemma rowFromA_of_mem_phasesA (cfg : SemesterConfig) (endS anchor : Int) :
    ∀ cas cursor safety ctr row,
      row ∈ (phasesA cfg endS anchor cas cursor safety ctr).1 →
      RowFromA cfg row := by
  intro cas
  induction cas with
  | nil => intro cursor safety ctr row h; simp [phasesA] at h
  | cons ca rest ih =>
    intro cursor safety ctr row h
    simp only [phasesA] at h
    split at h
    · simp at h
    · simp only [List.mem_append] at h
      rcases h with h | h
      · exact rowFromA_of_mem_fillA cfg endS anchor _ ca _ _ _ _ _ _ row h
      · exact ih _ _ _ row h

lemma rowFromA_of_mem_tailFillA (cfg : SemesterConfig) (endS anchor : Int) :
    ∀ fuel d safety ctr row,
      row ∈ tailFillA cfg endS anchor fuel d safety ctr →
      RowFromA cfg row := by
  intro fuel
  induction fuel with
  | zero => intro d safety ctr row h; simp [tailFillA] at h
  | succ n ih =>
    intro d safety ctr row h
    simp only [tailFillA] at h
    split at h
    · split at h
      · simp at h
      · next rowCtr hA =>
          simp only [List.mem_cons] at h
          rcases h with h | h
          · rw [addDayToScheduleA] at hA
            split at hA
            · exact absurd hA (by simp)
            · exact ⟨anchor, ctr, d, DayType.normal, none, by rw [h, ← Option.some_inj.mp hA]⟩
          · exact ih _ _ _ _ h
    · simp at h

lemma rowFromA_of_mem (cfg : SemesterConfig) (row : ScheduleRow)
    (h : row ∈ generateMasterScheduleA cfg) : RowFromA cfg row := by
  rw [generateMasterScheduleA] at h
  split at h
  · simp at h
  · split at h
    · split at h
      · simp at h
      · split at h
        · simp at h
        · simp only [List.mem_append] at h
          rcases h with h | h
          · exact rowFromA_of_mem_phasesA cfg _ _ _ _ _ _ row h
          · exact rowFromA_of_mem_tailFillA cfg _ _ _ _ _ _ row h
    · simp at h

lemma rowFromB_of_mem_dayLoopB (cfg : SemesterConfig) (endS anchor limit : Int)
    (ca : CAConfig) (caD evD : List Int) :
    ∀ fuel d ctr row,
      row ∈ (dayLoopB cfg endS anchor limit ca caD evD fuel d ctr).1 →
      RowFromB cfg row := by
  intro fuel
  induction fuel with
  | zero => intro d ctr row h; simp [dayLoopB] at h
  | succ n ih =>
    intro d ctr row h
    simp only [dayLoopB] at h
    split at h
    · simp only [List.mem_cons] at h
      rcases h with h | h
      · exact ⟨anchor, ctr, d, _, some ca.id, some ca, h⟩
      · exact ih _ _ row h
    · simp at h

lemma rowFromB_of_mem_phasesB (cfg : SemesterConfig) (endS anchor : Int) :
    ∀ cas cursor ctr row,
      row ∈ (phasesB cfg endS anchor cas cursor ctr).1 →
      RowFromB cfg row := by
  intro cas
  induction cas with
  | nil => intro cursor ctr row h; simp [phasesB] at h
  | cons ca rest ih =>
    intro cursor ctr row h
    simp only [phasesB] at h
    split at h
    · exact rowFromB_of_mem_dayLoopB cfg endS anchor _ ca _ _ _ _ _ row h
    · simp only [List.mem_append] at h
      rcases h with h | h
      · exact rowFromB_of_mem_dayLoopB cfg endS anchor _ ca _ _ _ _ _ row h
      · exact ih _ _ row h

lemma rowFromB_of_mem_tailFillB (cfg : SemesterConfig) (endS anchor : Int) :
    ∀ fuel d ctr row,
      row ∈ tailFillB cfg endS anchor fuel d ctr →
      RowFromB cfg row := by
  intro fuel
  induction fuel with
  | zero => intro d ctr row h; simp [tailFillB] at h
  | succ n ih =>
    intro d ctr row h
    simp only [tailFillB] at h
    split at h
    · simp only [List.mem_cons] at h
      rcases h with h | h
      · exact ⟨anchor, ctr, d, DayType.normal, some "post-ca-phase", none, h⟩
      · exact ih _ _ row h
    · simp at h

lemma rowFromB_of_mem (cfg : SemesterConfig) (row : ScheduleRow)
    (h : row ∈ generateMasterScheduleB cfg) : RowFromB cfg row := by
  rw [generateMasterScheduleB] at h
  split at h
  · simp at h
  · split at h
    · simp only [List.mem_append] at h
      rcases h with h | h
      · exact rowFromB_of_mem_phasesB cfg _ _ _ _ _ row h
      · exact rowFromB_of_mem_tailFillB cfg _ _ _ _ _ row h
    · simp at h

/-! ## Day-materializer facts -/

lemma processSlotsA_nonworking (cfg : SemesterConfig) (dayName : String) (status : Status)
    (h1 : status ≠ .ca) (h2 : status ≠ .event) (h3 : status ≠ .working) :
    ∀ slots ctr, processSlotsA cfg dayName status slots ctr =
      (slots.map (fun s => (s.id, emptySlot)), ctr) := by
  intro slots
  induction slots with
  | nil => intro ctr; simp [processSlotsA]
  | cons s rest ih =>
    intro ctr
    simp [processSlotsA, h1, h2, h3, ih]

lemma processSlotsB_nonworking (cfg : SemesterConfig) (dayName : String) (status : Status)
    (h1 : status ≠ .ca) (h2 : status ≠ .event) (h3 : status ≠ .working) :
    ∀ slots ctr, processSlotsB cfg dayName status slots ctr =
      (slots.map (fun s => (s.id, emptySlot)), ctr) := by
  intro slots
  induction slots with
  | nil => intro ctr; simp [processSlotsB]
  | cons s rest ih =>
    intro ctr
    simp [processSlotsB, h1, h2, h3, ih]

lemma mkDayA_date (cfg : SemesterConfig) (anchor : Int) (ctr : Counters) (d : Int)
    (ty : DayType) (caRef : Option CAConfig) :
    ((mkDayA cfg anchor ctr d ty caRef).1).date = formatDate d := rfl

lemma mkDayB_date (cfg : SemesterConfig) (anchor : Int) (ctr : Counters) (d : Int)
    (ty : DayType) (phaseId : Option String) (caRef : Option CAConfig) :
    ((mkDayB cfg anchor ctr d ty phaseId caRef).1).date = formatDate d := rfl

lemma mkDayA_holiday (cfg : SemesterConfig) (anchor : Int) (ctr : Counters) (d : Int)
    (ty : DayType) (caRef : Option CAConfig)
    (h : (holidaySet cfg).contains (formatDate d) = true) :
    ((mkDayA cfg anchor ctr d ty caRef).1).status = Status.holiday ∧
    ((mkDayA cfg anchor ctr d ty caRef).1).reason =
      jsOrStr (holidayMapGet cfg (formatDate d)) "Holiday" ∧
    ((mkDayA cfg anchor ctr d ty caRef).1).slotMappings =
      cfg.slots.map (fun s => (s.id, emptySlot)) := by
  have hslots : (processSlotsA cfg (getDayName d) Status.holiday cfg.slots ctr).1 =
      cfg.slots.map (fun s => (s.id, emptySlot)) := by
    rw [processSlotsA_nonworking cfg (getDayName d) Status.holiday
      (by simp) (by simp) (by simp) cfg.slots ctr]
  refine ⟨?_, ?_, ?_⟩
  · simp only [mkDayA, h, if_true]
  · simp only [mkDayA, h, if_true]
  · simp only [mkDayA, h, if_true]
    exact hslots

lemma mkDayB_holiday (cfg : SemesterConfig) (anchor : Int) (ctr : Counters) (d : Int)
    (ty : DayType) (phaseId : Option String) (caRef : Option CAConfig)
    (h : (holidaySet cfg).contains (formatDate d) = true) :
    ((mkDayB cfg anchor ctr d ty phaseId caRef).1).status = Status.holiday ∧
    ((mkDayB cfg anchor ctr d ty phaseId caRef).1).reason =
      jsOrStr (holidayMapGet cfg (formatDate d)) "Holiday" ∧
    ((mkDayB cfg anchor ctr d ty phaseId caRef).1).slotMappings =
      cfg.slots.map (fun s => (s.id, emptySlot)) := by
  have hslots : (processSlotsB cfg (getDayName d) Status.holiday cfg.slots ctr).1 =
      cfg.slots.map (fun s => (s.id, emptySlot)) := by
    rw [processSlotsB_nonworking cfg (getDayName d) Status.holiday
      (by simp) (by simp) (by simp) cfg.slots ctr]
  refine ⟨?_, ?_, ?_⟩
  · simp only [mkDayB, h, if_true]
  · simp only [mkDayB, h, if_true]
  · simp only [mkDayB, h, if_true]
    exact hslots

/-- C3. A date in the configured holiday set always yields a holiday Day
Record — in both generator variants, for every configuration: the status is
`holiday`, the reason is the configured holiday reason (with the `"Holiday"`
fallback for a missing/empty reason), and every slot mapping has kind
`empty`, regardless of how the phase walk classified the date. -/
theorem holiday_precedence (cfg : SemesterConfig) (row : ScheduleRow)
    (hmem : row ∈ generateMasterScheduleA cfg ∨ row ∈ generateMasterScheduleB cfg)
    (hdate : row.date ∈ holidaySet cfg) :
    row.status = Status.holiday ∧
    row.reason = jsOrStr (holidayMapGet cfg row.date) "Holiday" ∧
    ∀ p ∈ row.slotMappings, p.2.type = SlotType.empty := by
  rcases hmem with hmem | hmem
  · obtain ⟨anchor, ctr, d, ty, caRef, hrow⟩ := rowFromA_of_mem cfg row hmem
    have hd : row.date = formatDate d := by rw [hrow, mkDayA_date]
    have hc : (holidaySet cfg).contains (formatDate d) = true := by
      rw [← hd]; exact List.elem_eq_true_of_mem hdate
    obtain ⟨h1, h2, h3⟩ := mkDayA_holiday cfg anchor ctr d ty caRef hc
    refine ⟨by rw [hrow, h1], by rw [hrow, h2, mkDayA_date], ?_⟩
    intro p hp
    rw [hrow, h3] at hp
    obtain ⟨s, _, hs⟩ := List.mem_map.mp hp
    rw [← hs]
    rfl
  · obtain ⟨anchor, ctr, d, ty, phaseId, caRef, hrow⟩ := rowFromB_of_mem cfg row hmem
    have hd : row.date = formatDate d := by rw [hrow, mkDayB_date]
    have hc : (holidaySet cfg).contains (formatDate d) = true := by
      rw [← hd]; exact List.elem_eq_true_of_mem hdate
    obtain ⟨h1, h2, h3⟩ := mkDayB_holiday cfg anchor ctr d ty phaseId caRef hc
    refine ⟨by rw [hrow, h1], by rw [hrow, h2, mkDayB_date], ?_⟩
    intro p hp
    rw [hrow, h3] at hp
    obtain ⟨s, _, hs⟩ := List.mem_map.mp hp
    rw [← hs]
    rfl

/-! ## The 5-year guard of variant A is vacuous -/

lemma one_le_daysInMonth (y : Int) (m : Nat) : 1 ≤ daysInMonth y m := by
  unfold daysInMonth
  repeat' split
  all_goals omega

set_option maxHeartbeats 1000000 in
lemma one_le_civil_day (s : Int) : 1 ≤ (civilFromDays s).2.2 := by
  simp only [civilFromDays]
  omega

set_option maxHeartbeats 1000000 in
lemma le_daysFromCivil_shift (s : Int) (dd : Nat) (hdd : 1 ≤ dd) :
    s ≤ daysFromCivil ((civilFromDays s).1 + 5) ((civilFromDays s).2.1) dd := by
  unfold civilFromDays daysFromCivil
  simp only [Int.fdiv_eq_ediv _ (by norm_num : (0:Int) ≤ 400),
    Int.fdiv_eq_ediv _ (by norm_num : (0:Int) ≤ 146097)]
  split_ifs <;> omega

/-- The source guard `isAfter(start, addYears(start, 5))` compares the start
date against its own five-year shift, so it never fires. -/
lemma addYears5_not_lt (s : Int) : ¬ (addYearsSerial s 5 < s) := by
  have h1 : 1 ≤ min ((civilFromDays s).2.2)
      (daysInMonth ((civilFromDays s).1 + 5) ((civilFromDays s).2.1)) :=
    le_min (one_le_civil_day s) (one_le_daysInMonth _ _)
  have h2 := le_daysFromCivil_shift s _ h1
  simp only [addYearsSerial]
  omega

/-! ## Day stamping: dates and week numbering of produced rows -/

lemma rowStamped_nil (anchor d0 : Int) : RowStamped anchor d0 [] := by
  intro j h
  simp at h

lemma rowStamped_cons {anchor d0 : Int} {row : ScheduleRow} {rows : List ScheduleRow}
    (h1 : row.date = formatDate d0 ∧ row.weekNumber = (d0 - anchor).fdiv 7 + 1 ∧
      row.dayInWeek = (d0 - anchor).tmod 7 + 1)
    (h2 : RowStamped anchor (d0 + 1) rows) : RowStamped anchor d0 (row :: rows) := by
  intro j hj
  cases j with
  | zero => simpa using h1
  | succ k =>
    have hk : k < rows.length := by simpa using hj
    have hrec := h2 k hk
    have harith : d0 + ((k + 1 : Nat) : Int) = (d0 + 1) + (k : Int) := by push_cast; ring
    show (rows.get ⟨k, hk⟩).date = formatDate (d0 + ((k + 1 : Nat) : Int)) ∧ _ ∧ _
    rw [harith]
    exact hrec

lemma rowStamped_tail {anchor d0 : Int} {row : ScheduleRow} {rows : List ScheduleRow}
    (h : RowStamped anchor d0 (row :: rows)) : RowStamped anchor (d0 + 1) rows := by
  intro j hj
  have hrec := h (j + 1) (by simpa using hj)
  have harith : d0 + ((j + 1 : Nat) : Int) = (d0 + 1) + (j : Int) := by push_cast; ring
  rw [harith] at hrec
  exact hrec

lemma rowStamped_append {anchor d0 : Int} {l1 l2 : List ScheduleRow}
    (h1 : RowStamped anchor d0 l1) (h2 : RowStamped anchor (d0 + l1.length) l2) :
    RowStamped anchor d0 (l1 ++ l2) := by
  induction l1 generalizing d0 with
  | nil => simpa using h2
  | cons x l ih =>
    refine rowStamped_cons ?_ (ih (rowStamped_tail h1) ?_)
    · simpa using h1 0 (by simp)
    · rw [show d0 + 1 + (l.length : Int) = d0 + ((x :: l).length : Int) from by
        push_cast [List.length_cons]; ring]
      exact h2

lemma mkDayA_stamp (cfg : SemesterConfig) (anchor : Int) (ctr : Counters) (d : Int)
    (ty : DayType) (caRef : Option CAConfig) :
    ((mkDayA cfg anchor ctr d ty caRef).1).date = formatDate d ∧
    ((mkDayA cfg anchor ctr d ty caRef).1).weekNumber = (d - anchor).fdiv 7 + 1 ∧
    ((mkDayA cfg anchor ctr d ty caRef).1).dayInWeek = (d - anchor).tmod 7 + 1 :=
  ⟨rfl, rfl, rfl⟩

lemma mkDayB_stamp (cfg : SemesterConfig) (anchor : Int) (ctr : Counters) (d : Int)
    (ty : DayType) (phaseId : Option String) (caRef : Option CAConfig) :
    ((mkDayB cfg anchor ctr d ty phaseId caRef).1).date = formatDate d ∧
    ((mkDayB cfg anchor ctr d ty phaseId caRef).1).weekNumber = (d - anchor).fdiv 7 + 1 ∧
    ((mkDayB cfg anchor ctr d ty phaseId caRef).1).dayInWeek = (d - anchor).tmod 7 + 1 :=
  ⟨rfl, rfl, rfl⟩

lemma phaseDatesA_mem_bounds (endS cursor : Int) (ca : CAConfig) (x : Int)
    (h : x ∈ phaseDatesA endS cursor ca) : cursor ≤ x ∧ x ≤ endS := by
  have hx : x ∈ (List.range (ca.weekOrder * 7)).map (fun (i : Nat) => cursor + (i : Int)) :=
    ((List.takeWhile_prefix _).subset) h
  have hp := List.mem_takeWhile_imp h
  simp only [decide_eq_true_eq] at hp
  obtain ⟨i, _, hi⟩ := List.mem_map.mp hx
  constructor
  · rw [← hi]
    exact le_add_of_nonneg_right (by exact_mod_cast Nat.zero_le i)
  · exact hp

lemma phaseDatesA_nil_of_gt (endS cursor : Int) (ca : CAConfig) (h : endS < cursor) :
    phaseDatesA endS cursor ca = [] := by
  unfold phaseDatesA
  cases hw : ca.weekOrder * 7 with
  | zero => simp
  | succ k =>
    rw [List.range_succ_eq_map]
    simp only [List.map_cons, Nat.cast_zero, add_zero]
    rw [List.takeWhile_cons_of_neg]
    simp only [decide_eq_true_eq]
    omega

lemma fillA_past_end (cfg : SemesterConfig) (endS anchor lastFill : Int) (ca : CAConfig)
    (caD evD : List Int) (d : Int) (hd : endS < d) :
    ∀ fuel safety ctr,
      fillA cfg endS anchor lastFill ca caD evD fuel d safety ctr = ([], d, safety, ctr) := by
  intro fuel safety ctr
  cases fuel with
  | zero => rfl
  | succ n =>
    simp only [fillA]
    split
    · rw [show addDayToScheduleA cfg endS anchor ctr d
          (if caD.contains d then DayType.ca else if evD.contains d then DayType.event
            else DayType.normal) (some ca) = none from by simp [addDayToScheduleA, hd]]
    · rfl

lemma fillA_stamped (cfg : SemesterConfig) (endS anchor lastFill : Int) (ca : CAConfig)
    (caD evD : List Int) :
    ∀ fuel d safety ctr,
      d ≤ lastFill + 1 → lastFill ≤ endS →
      (lastFill + 1 - d).toNat ≤ fuel →
      safety + (lastFill + 1 - d).toNat ≤ MAXDAYS →
      ∃ rows ctr',
        fillA cfg endS anchor lastFill ca caD evD fuel d safety ctr =
          (rows, lastFill + 1, safety + (lastFill + 1 - d).toNat, ctr') ∧
        rows.length = (lastFill + 1 - d).toNat ∧
        RowStamped anchor d rows := by
  intro fuel
  induction fuel with
  | zero =>
    intro d safety ctr h1 h2 h3 h4
    have hd : d = lastFill + 1 := by omega
    subst hd
    exact ⟨[], ctr, by simp [fillA], by simp, rowStamped_nil anchor _⟩
  | succ n ih =>
    intro d safety ctr h1 h2 h3 h4
    by_cases hd : d ≤ lastFill
    · have hcnt : 1 ≤ (lastFill + 1 - d).toNat := by omega
      have hs : safety < MAXDAYS := by omega
      obtain ⟨rows', ctr', heq, hlen, hst⟩ := ih (d + 1) (safety + 1)
        (mkDayA cfg anchor ctr d
          (if caD.contains d then DayType.ca else if evD.contains d then DayType.event
            else DayType.normal) (some ca)).2
        (by omega) h2 (by omega) (by omega)
      refine ⟨(mkDayA cfg anchor ctr d
          (if caD.contains d then DayType.ca else if evD.contains d then DayType.event
            else DayType.normal) (some ca)).1 :: rows', ctr', ?_, ?_, ?_⟩
      · simp only [fillA]
        rw [if_pos ⟨hd, hs⟩, addDayA_of_le cfg endS anchor ctr d _ (some ca) (by omega)]
        dsimp only
        rw [heq, show safety + 1 + (lastFill + 1 - (d + 1)).toNat =
          safety + (lastFill + 1 - d).toNat from by omega]
      · simp only [List.length_cons, hlen]
        omega
      · exact rowStamped_cons (mkDayA_stamp cfg anchor ctr d _ (some ca)) hst
    · have hdd : d = lastFill + 1 := by omega
      subst hdd
      refine ⟨[], ctr, ?_, by simp, rowStamped_nil anchor _⟩
      simp only [fillA]
      rw [if_neg (by omega)]
      simp

lemma tailFillA_stamped (cfg : SemesterConfig) (endS anchor : Int) :
    ∀ fuel d safety ctr,
      d ≤ endS + 1 →
      (endS + 1 - d).toNat ≤ fuel →
      safety + (endS + 1 - d).toNat ≤ MAXDAYS →
      (tailFillA cfg endS anchor fuel d safety ctr).length = (endS + 1 - d).toNat ∧
      RowStamped anchor d (tailFillA cfg endS anchor fuel d safety ctr) := by
  intro fuel
  induction fuel with
  | zero =>
    intro d safety ctr h1 h2 h3
    have hd : d = endS + 1 := by omega
    subst hd
    exact ⟨by simp [tailFillA], rowStamped_nil anchor _⟩
  | succ n ih =>
    intro d safety ctr h1 h2 h3
    by_cases hd : d ≤ endS
    · have hs : safety < MAXDAYS := by omega
      obtain ⟨hlen, hst⟩ := ih (d + 1) (safety + 1)
        (mkDayA cfg anchor ctr d DayType.normal none).2 (by omega) (by omega) (by omega)
      have heq : tailFillA cfg endS anchor (n + 1) d safety ctr =
          (mkDayA cfg anchor ctr d DayType.normal none).1 ::
            tailFillA cfg endS anchor n (d + 1) (safety + 1)
              (mkDayA cfg anchor ctr d DayType.normal none).2 := by
        simp only [tailFillA]
        rw [if_pos ⟨hd, hs⟩, addDayA_of_le cfg endS anchor ctr d DayType.normal none (by omega)]
      rw [heq]
      refine ⟨by simp only [List.length_cons, hlen]; omega, ?_⟩
      exact rowStamped_cons (mkDayA_stamp cfg anchor ctr d DayType.normal none) hst
    · have hdd : d = endS + 1 := by omega
      subst hdd
      have heq : tailFillA cfg endS anchor (n + 1) (endS + 1) safety ctr = [] := by
        simp only [tailFillA]
        rw [if_neg (by omega)]
      rw [heq]
      exact ⟨by simp, rowStamped_nil anchor _⟩

lemma phasePlanA_last (cfg : SemesterConfig) (endS cursor : Int) (ca : CAConfig) :
    (phasePlanA cfg endS cursor ca).2.2 =
      (match (phaseDatesA endS cursor ca).getLast? with
        | some x => x
        | none => cursor) := rfl

lemma phasesA_stamped (cfg : SemesterConfig) (endS anchor : Int) :
    ∀ cas cursor safety ctr,
      cursor ≤ endS + 1 →
      safety + (endS + 1 - cursor).toNat ≤ MAXDAYS →
      ∃ rows cursor' ctr',
        phasesA cfg endS anchor cas cursor safety ctr =
          (rows, cursor', safety + (cursor' - cursor).toNat, ctr') ∧
        cursor ≤ cursor' ∧ cursor' ≤ endS + 1 ∧
        rows.length = (cursor' - cursor).toNat ∧
        RowStamped anchor cursor rows := by
  intro cas
  induction cas with
  | nil =>
    intro cursor safety ctr h1 h2
    exact ⟨[], cursor, ctr, by simp [phasesA], le_refl _, h1, by simp, rowStamped_nil anchor _⟩
  | cons ca rest ih =>
    intro cursor safety ctr h1 h2
    have hguard : ¬ MAXDAYS < safety := by omega
    by_cases hcur : cursor ≤ endS
    · have hlast : cursor ≤ (phasePlanA cfg endS cursor ca).2.2 ∧
          (phasePlanA cfg endS cursor ca).2.2 ≤ endS := by
        rw [phasePlanA_last]
        cases hL : (phaseDatesA endS cursor ca).getLast? with
        | none => exact ⟨le_refl _, hcur⟩
        | some x =>
          have hxmem : x ∈ phaseDatesA endS cursor ca := by
            obtain ⟨hne, hform⟩ := List.mem_getLast?_eq_getLast (by rw [hL]; rfl)
            rw [hform]
            exact List.getLast_mem hne
          exact phaseDatesA_mem_bounds endS cursor ca x hxmem
      obtain ⟨rows1, ctr1, heq1, hlen1, hst1⟩ :=
        fillA_stamped cfg endS anchor (phasePlanA cfg endS cursor ca).2.2 ca
          (phasePlanA cfg endS cursor ca).1 (phasePlanA cfg endS cursor ca).2.1
          (MAXDAYS + 1 - safety) cursor safety ctr
          (by omega) hlast.2 (by omega) (by omega)
      obtain ⟨rows2, cursor', ctr', heq2, hc1, hc2, hlen2, hst2⟩ :=
        ih ((phasePlanA cfg endS cursor ca).2.2 + 1)
          (safety + ((phasePlanA cfg endS cursor ca).2.2 + 1 - cursor).toNat) ctr1
          (by omega) (by omega)
      refine ⟨rows1 ++ rows2, cursor', ctr', ?_, by omega, hc2, ?_, ?_⟩
      · simp only [phasesA]
        rw [if_neg hguard, heq1]
        dsimp only
        rw [heq2, show safety + ((phasePlanA cfg endS cursor ca).2.2 + 1 - cursor).toNat +
          (cursor' - ((phasePlanA cfg endS cursor ca).2.2 + 1)).toNat =
          safety + (cursor' - cursor).toNat from by omega]
      · simp only [List.length_append, hlen1, hlen2]
        omega
      · refine rowStamped_append hst1 ?_
        rw [show cursor + (rows1.length : Int) = (phasePlanA cfg endS cursor ca).2.2 + 1 from by
          rw [hlen1]; omega]
        exact hst2
    · have hlast : (phasePlanA cfg endS cursor ca).2.2 = cursor := by
        rw [phasePlanA_last, phaseDatesA_nil_of_gt endS cursor ca (by omega)]
        rfl
      obtain ⟨rows2, cursor', ctr', heq2, hc1, hc2, hlen2, hst2⟩ :=
        ih cursor safety ctr h1 h2
      refine ⟨rows2, cursor', ctr', ?_, hc1, hc2, hlen2, hst2⟩
      simp only [phasesA]
      rw [if_neg hguard, hlast,
        fillA_past_end cfg endS anchor cursor ca _ _ cursor (by omega) _ safety ctr]
      dsimp only
      rw [heq2]
      rfl

lemma phaseLimitB_bounds (endS cursor : Int) (ca : CAConfig) (h : cursor ≤ endS) :
    cursor ≤ phaseLimitB endS cursor ca ∧ phaseLimitB endS cursor ca ≤ endS := by
  simp only [phaseLimitB]
  repeat' split
  all_goals omega

lemma dayLoopB_stamped (cfg : SemesterConfig) (endS anchor limit : Int) (ca : CAConfig)
    (caD evD : List Int) (hlim : limit ≤ endS) :
    ∀ fuel d ctr,
      d ≤ limit →
      (limit - d).toNat ≤ fuel →
      ∃ rows ctr',
        dayLoopB cfg endS anchor limit ca caD evD fuel d ctr = (rows, ctr') ∧
        rows.length = (limit - d).toNat ∧
        RowStamped anchor d rows := by
  intro fuel
  induction fuel with
  | zero =>
    intro d ctr h1 h2
    have hd : d = limit := by omega
    subst hd
    exact ⟨[], ctr, by simp [dayLoopB], by simp, rowStamped_nil anchor _⟩
  | succ n ih =>
    intro d ctr h1 h2
    by_cases hd : d < limit
    · obtain ⟨rows', ctr', heq, hlen, hst⟩ := ih (d + 1)
        (mkDayB cfg anchor ctr d
          (if caD.contains d then DayType.ca else if evD.contains d then DayType.event
            else DayType.normal) (some ca.id) (some ca)).2
        (by omega) (by omega)
      refine ⟨(mkDayB cfg anchor ctr d
          (if caD.contains d then DayType.ca else if evD.contains d then DayType.event
            else DayType.normal) (some ca.id) (some ca)).1 :: rows', ctr', ?_, ?_, ?_⟩
      · simp only [dayLoopB]
        rw [if_pos ⟨hd, by omega⟩]
        rw [heq]
      · simp only [List.length_cons, hlen]
        omega
      · exact rowStamped_cons (mkDayB_stamp cfg anchor ctr d _ (some ca.id) (some ca)) hst
    · have hdd : d = limit := by omega
      subst hdd
      refine ⟨[], ctr, ?_, by simp, rowStamped_nil anchor _⟩
      simp only [dayLoopB]
      rw [if_neg (by omega)]

lemma tailFillB_stamped (cfg : SemesterConfig) (endS anchor : Int) :
    ∀ fuel d ctr,
      d ≤ endS + 1 →
      (endS + 1 - d).toNat ≤ fuel →
      (tailFillB cfg endS anchor fuel d ctr).length = (endS + 1 - d).toNat ∧
      RowStamped anchor d (tailFillB cfg endS anchor fuel d ctr) := by
  intro fuel
  induction fuel with
  | zero =>
    intro d ctr h1 h2
    have hd : d = endS + 1 := by omega
    subst hd
    exact ⟨by simp [tailFillB], rowStamped_nil anchor _⟩
  | succ n ih =>
    intro d ctr h1 h2
    by_cases hd : d ≤ endS
    · obtain ⟨hlen, hst⟩ := ih (d + 1) (mkDayB cfg anchor ctr d DayType.normal
        (some "post-ca-phase") none).2 (by omega) (by omega)
      have heq : tailFillB cfg endS anchor (n + 1) d ctr =
          (mkDayB cfg anchor ctr d DayType.normal (some "post-ca-phase") none).1 ::
            tailFillB cfg endS anchor n (d + 1)
              (mkDayB cfg anchor ctr d DayType.normal (some "post-ca-phase") none).2 := by
        simp only [tailFillB]
        rw [if_pos hd]
      rw [heq]
      refine ⟨by simp only [List.length_cons, hlen]; omega, ?_⟩
      exact rowStamped_cons (mkDayB_stamp cfg anchor ctr d DayType.normal
        (some "post-ca-phase") none) hst
    · have hdd : d = endS + 1 := by omega
      subst hdd
      have heq : tailFillB cfg endS anchor (n + 1) (endS + 1) ctr = [] := by
        simp only [tailFillB]
        rw [if_neg (by omega)]
      rw [heq]
      exact ⟨by simp, rowStamped_nil anchor _⟩

lemma phasesB_stamped (cfg : SemesterConfig) (endS anchor : Int) :
    ∀ cas cursor ctr,
      cursor ≤ endS →
      ∃ rows cursor' ctr',
        phasesB cfg endS anchor cas cursor ctr = (rows, cursor', ctr') ∧
        cursor ≤ cursor' ∧ cursor' ≤ endS ∧
        rows.length = (cursor' - cursor).toNat ∧
        RowStamped anchor cursor rows := by
  intro cas
  induction cas with
  | nil =>
    intro cursor ctr h1
    exact ⟨[], cursor, ctr, by simp [phasesB], le_refl _, h1, by simp, rowStamped_nil anchor _⟩
  | cons ca rest ih =>
    intro cursor ctr h1
    obtain ⟨hlim1, hlim2⟩ := phaseLimitB_bounds endS cursor ca h1
    obtain ⟨rows1, ctr1, heq1, hlen1, hst1⟩ :=
      dayLoopB_stamped cfg endS anchor (phaseLimitB endS cursor ca) ca
        (phasePlanB cfg endS cursor ca).1 (phasePlanB cfg endS cursor ca).2
        hlim2 ((phaseLimitB endS cursor ca) - cursor).toNat cursor ctr hlim1 (le_refl _)
    obtain ⟨rows2, cursor', ctr', heq2, hc1, hc2, hlen2, hst2⟩ :=
      ih (phaseLimitB endS cursor ca) ctr1 hlim2
    refine ⟨rows1 ++ rows2, cursor', ctr', ?_, by omega, hc2, ?_, ?_⟩
    · simp only [phasesB]
      rw [heq1]
      dsimp only
      rw [if_neg (by omega), heq2]
    · simp only [List.length_append, hlen1, hlen2]
      omega
    · refine rowStamped_append hst1 ?_
      rw [show cursor + (rows1.length : Int) = phaseLimitB endS cursor ca from by
        rw [hlen1]; omega]
      exact hst2

/-- Assembled characterization of variant A's generator on a valid
configuration: its rows are exactly one per day of the closed interval, in
order, each stamped with that day's date and continuous week numbering. -/
lemma generateMasterScheduleA_stamped (cfg : SemesterConfig) (a b : Int)
    (hs : parseISO cfg.startDate = some a) (he : parseISO cfg.endDate = some b)
    (hab : a ≤ b) (hspan : (b - a).toNat ≤ 1827) :
    (generateMasterScheduleA cfg).length = (b + 1 - a).toNat ∧
    RowStamped a a (generateMasterScheduleA cfg) := by
  have hne1 : ¬ cfg.startDate = "" := by
    intro h
    rw [h] at hs
    simp [parseISO] at hs
  have hne2 : ¬ cfg.endDate = "" := by
    intro h
    rw [h] at he
    simp [parseISO] at he
  have hM : MAXDAYS = 5000 := rfl
  obtain ⟨rows1, cursor1, ctr1, heq1, hc1, hc2, hlen1, hst1⟩ :=
    phasesA_stamped cfg b a cfg.cas a 0 (fun _ => 0) (by omega) (by omega)
  obtain ⟨hlen2, hst2⟩ := tailFillA_stamped cfg b a (MAXDAYS + 1 - (0 + (cursor1 - a).toNat))
    cursor1 (0 + (cursor1 - a).toNat) ctr1 hc2 (by omega) (by omega)
  have hgen : generateMasterScheduleA cfg =
      rows1 ++ tailFillA cfg b a (MAXDAYS + 1 - (0 + (cursor1 - a).toNat)) cursor1
        (0 + (cursor1 - a).toNat) ctr1 := by
    unfold generateMasterScheduleA
    rw [if_neg (by simp [hne1, hne2]), hs, he]
    dsimp only
    rw [if_neg (by omega), if_neg (by exact addYears5_not_lt a), heq1]
  rw [hgen]
  constructor
  · simp only [List.length_append, hlen1, hlen2]
    omega
  · refine rowStamped_append hst1 ?_
    rw [show a + (rows1.length : Int) = cursor1 from by rw [hlen1]; omega]
    exact hst2

/-- Assembled characterization of variant B's generator on a valid
configuration. -/
lemma generateMasterScheduleB_stamped (cfg : SemesterConfig) (a b : Int)
    (hs : parseISO cfg.startDate = some a) (he : parseISO cfg.endDate = some b)
    (hab : a ≤ b) :
    (generateMasterScheduleB cfg).length = (b + 1 - a).toNat ∧
    RowStamped a a (generateMasterScheduleB cfg) := by
  have hne1 : ¬ cfg.startDate = "" := by
    intro h
    rw [h] at hs
    simp [parseISO] at hs
  have hne2 : ¬ cfg.endDate = "" := by
    intro h
    rw [h] at he
    simp [parseISO] at he
  obtain ⟨rows1, cursor1, ctr1, heq1, hc1, hc2, hlen1, hst1⟩ :=
    phasesB_stamped cfg b a cfg.cas a (fun _ => 0) hab
  obtain ⟨hlen2, hst2⟩ := tailFillB_stamped cfg b a (b + 1 - cursor1).toNat
    cursor1 ctr1 (by omega) (le_refl _)
  have hgen : generateMasterScheduleB cfg =
      rows1 ++ tailFillB cfg b a (b + 1 - cursor1).toNat cursor1 ctr1 := by
    unfold generateMasterScheduleB
    rw [if_neg (by simp [hne1, hne2]), hs, he]
    dsimp only
    rw [heq1]
  rw [hgen]
  constructor
  · simp only [List.length_append, hlen1, hlen2]
    omega
  · refine rowStamped_append hst1 ?_
    rw [show a + (rows1.length : Int) = cursor1 from by rw [hlen1]; omega]
    exact hst2

lemma map_date_of_stamped {anchor d0 : Int} {rows : List ScheduleRow}
    (h : RowStamped anchor d0 rows) :
    rows.map (·.date) = (List.range rows.length).map (fun (i : Nat) => formatDate (d0 + i)) := by
  apply List.ext_getElem (by simp)
  intro n h1 h2
  simp only [List.getElem_map, List.getElem_range]
  have hn := h n (by simpa using h1)
  simp only [List.get_eq_getElem] at hn
  exact hn.1

lemma natCast_fdiv_seven (i : Nat) : ((i : Int)).fdiv 7 = ((i / 7 : Nat) : Int) := by
  rw [Int.fdiv_eq_ediv _ (by norm_num)]
  omega

lemma natCast_tmod_seven (i : Nat) : ((i : Int)).tmod 7 = ((i % 7 : Nat) : Int) := by
  rw [Int.tmod_eq_emod (by positivity) (by norm_num)]
  omega

/-- C1.  For every valid configuration (parsable start and end dates, start
not after end, within the allowed five-year span), both generator variants
return exactly one Day Record per calendar date of the closed interval
`[startDate, endDate]`, in ascending date order with no gaps and no
duplicates: the list of row dates is precisely the interval `[start, end]`
of calendar days, in order, each rendered by `formatDate`. -/
theorem schedule_dates_exact (cfg : SemesterConfig) (a b : Int)
    (hs : parseISO cfg.startDate = some a) (he : parseISO cfg.endDate = some b)
    (hab : a ≤ b) (hspan : (b - a).toNat ≤ 1827) :
    (generateMasterScheduleA cfg).map (·.date) = (dateRange a b).map formatDate ∧
    (generateMasterScheduleB cfg).map (·.date) = (dateRange a b).map formatDate := by
  obtain ⟨hlenA, hstA⟩ := generateMasterScheduleA_stamped cfg a b hs he hab hspan
  obtain ⟨hlenB, hstB⟩ := generateMasterScheduleB_stamped cfg a b hs he hab
  constructor
  · rw [map_date_of_stamped hstA, hlenA]
    unfold dateRange
    rw [List.map_map]
    rfl
  · rw [map_date_of_stamped hstB, hlenB]
    unfold dateRange
    rw [List.map_map]
    rfl

/-- C10.  In both generator variants, every generated Day Record's
`weekNumber` and `dayInWeek` are computed continuously from the term start
date: the record for the `i`-th day of the term (0-based) carries
`weekNumber = i / 7 + 1` and `dayInWeek = i % 7 + 1` — i.e.
`floor((date - startDate)/7) + 1` and `((date - startDate) mod 7) + 1` —
and they are never reset at a phase boundary, despite the type comment in
the simpler variant describing `dayInWeek` as relative to a phase anchor. -/
theorem week_numbering_continuous (cfg : SemesterConfig) (a b : Int)
    (hs : parseISO cfg.startDate = some a) (he : parseISO cfg.endDate = some b)
    (hab : a ≤ b) (hspan : (b - a).toNat ≤ 1827) :
    (∀ i (hi : i < (generateMasterScheduleA cfg).length),
      ((generateMasterScheduleA cfg).get ⟨i, hi⟩).weekNumber = ((i / 7 : Nat) : Int) + 1 ∧
      ((generateMasterScheduleA cfg).get ⟨i, hi⟩).dayInWeek = ((i % 7 : Nat) : Int) + 1) ∧
    (∀ i (hi : i < (generateMasterScheduleB cfg).length),
      ((generateMasterScheduleB cfg).get ⟨i, hi⟩).weekNumber = ((i / 7 : Nat) : Int) + 1 ∧
      ((generateMasterScheduleB cfg).get ⟨i, hi⟩).dayInWeek = ((i % 7 : Nat) : Int) + 1) := by
  obtain ⟨hlenA, hstA⟩ := generateMasterScheduleA_stamped cfg a b hs he hab hspan
  obtain ⟨hlenB, hstB⟩ := generateMasterScheduleB_stamped cfg a b hs he hab
  refine ⟨fun i hi => ?_, fun i hi => ?_⟩
  · obtain ⟨_, hw, hd⟩ := hstA i hi
    exact ⟨by rw [hw, show a + (i : Int) - a = (i : Int) from by ring, natCast_fdiv_seven],
      by rw [hd, show a + (i : Int) - a = (i : Int) from by ring, natCast_tmod_seven]⟩
  · obtain ⟨_, hw, hd⟩ := hstB i hi
    exact ⟨by rw [hw, show a + (i : Int) - a = (i : Int) from by ring, natCast_fdiv_seven],
      by rw [hd, show a + (i : Int) - a = (i : Int) from by ring, natCast_tmod_seven]⟩

/-! ## LU sequencing (C4) -/

lemma occRangeA_self (s : Subject) (c : Nat) : occRangeA s c c = [] := by
  simp [occRangeA]

lemma occRangeB_self (s : Subject) (c : Nat) : occRangeB s c c = [] := by
  simp [occRangeB]

lemma occRangeA_cons (s : Subject) (c c' : Nat) (h : c < c') :
    occRangeA s c c' = trackedSlotA s (c + 1) :: occRangeA s (c + 1) c' := by
  unfold occRangeA
  rw [show c' - c = (c' - (c + 1)) + 1 from by omega, List.range_succ_eq_map]
  simp only [List.map_cons, List.map_map, add_zero]
  congr 1
  apply List.map_congr_left
  intro j hj
  simp only [Function.comp_apply, Nat.succ_eq_add_one]
  congr 1
  omega

lemma occRangeB_cons (s : Subject) (c c' : Nat) (h : c < c') :
    occRangeB s c c' = trackedSlotB s (c + 1) :: occRangeB s (c + 1) c' := by
  unfold occRangeB
  rw [show c' - c = (c' - (c + 1)) + 1 from by omega, List.range_succ_eq_map]
  simp only [List.map_cons, List.map_map, add_zero]
  congr 1
  apply List.map_congr_left
  intro j hj
  simp only [Function.comp_apply, Nat.succ_eq_add_one]
  congr 1
  omega

lemma occRangeA_append (s : Subject) (c c' c'' : Nat) (h1 : c ≤ c') (h2 : c' ≤ c'') :
    occRangeA s c c' ++ occRangeA s c' c'' = occRangeA s c c'' := by
  unfold occRangeA
  rw [show c'' - c = (c' - c) + (c'' - c') from by omega, List.range_add, List.map_append,
    List.map_map]
  congr 1
  apply List.map_congr_left
  intro j hj
  simp only [Function.comp_apply]
  congr 1
  have := List.mem_range.mp hj
  omega

lemma occRangeB_append (s : Subject) (c c' c'' : Nat) (h1 : c ≤ c') (h2 : c' ≤ c'') :
    occRangeB s c c' ++ occRangeB s c' c'' = occRangeB s c c'' := by
  unfold occRangeB
  rw [show c'' - c = (c' - c) + (c'' - c') from by omega, List.range_add, List.map_append,
    List.map_map]
  congr 1
  apply List.map_congr_left
  intro j hj
  simp only [Function.comp_apply]
  congr 1
  have := List.mem_range.mp hj
  omega

lemma occsA_append (cfg : SemesterConfig) (sid : String) (l1 l2 : List ScheduleRow) :
    occsA cfg sid (l1 ++ l2) = occsA cfg sid l1 ++ occsA cfg sid l2 := by
  unfold occsA
  rw [List.flatMap_append]

lemma occsB_append (sid : String) (l1 l2 : List ScheduleRow) :
    occsB sid (l1 ++ l2) = occsB sid l1 ++ occsB sid l2 := by
  unfold occsB
  rw [List.flatMap_append]

lemma occsA_cons (cfg : SemesterConfig) (sid : String) (r : ScheduleRow)
    (rows : List ScheduleRow) :
    occsA cfg sid (r :: rows) =
      (if r.status = Status.working then
        (r.slotMappings.filter (fun p => cfg.weeklyPattern r.dayName p.1 == some sid)).map
          Prod.snd
      else []) ++ occsA cfg sid rows := by
  unfold occsA
  rw [List.flatMap_cons]

lemma occsB_cons (sid : String) (r : ScheduleRow) (rows : List ScheduleRow) :
    occsB sid (r :: rows) =
      (r.slotMappings.map Prod.snd).filter
        (fun m => m.type == SlotType.subject && m.subjectId == some sid) ++
      occsB sid rows := by
  unfold occsB
  rw [List.flatMap_cons]

lemma trackedSlotB_kind (s : Subject) (n : Nat) :
    (trackedSlotB s n).type = SlotType.subject ∧ (trackedSlotB s n).subjectId = some s.id := by
  unfold trackedSlotB
  split <;> exact ⟨rfl, rfl⟩

lemma find?_subject_id {l : List Subject} {sid : String} {sub : Subject}
    (h : l.find? (fun x => x.id == sid) = some sub) : sub.id = sid := by
  have := List.find?_some h
  simpa using this

lemma processSlotsA_ctr_nonworking (cfg : SemesterConfig) (dayName : String) (status : Status)
    (h : status ≠ Status.working) :
    ∀ slots ctr, (processSlotsA cfg dayName status slots ctr).2 = ctr := by
  intro slots
  induction slots with
  | nil => intro ctr; rfl
  | cons sl rest ih =>
    intro ctr
    cases status with
    | working => exact absurd rfl h
    | ca => simpa only [processSlotsA] using ih ctr
    | event => simpa only [processSlotsA] using ih ctr
    | holiday => simpa only [processSlotsA] using ih ctr
    | weekend => simpa only [processSlotsA] using ih ctr
    | blocked => simpa only [processSlotsA] using ih ctr

lemma processSlotsB_ctr_nonworking (cfg : SemesterConfig) (dayName : String) (status : Status)
    (h : status ≠ Status.working) :
    ∀ slots ctr, (processSlotsB cfg dayName status slots ctr).2 = ctr := by
  intro slots
  induction slots with
  | nil => intro ctr; rfl
  | cons sl rest ih =>
    intro ctr
    cases status with
    | working => exact absurd rfl h
    | ca => simpa only [processSlotsB] using ih ctr
    | event => simpa only [processSlotsB] using ih ctr
    | holiday => simpa only [processSlotsB] using ih ctr
    | weekend => simpa only [processSlotsB] using ih ctr
    | blocked => simpa only [processSlotsB] using ih ctr

lemma processSlotsB_ca (cfg : SemesterConfig) (dayName : String) :
    ∀ slots ctr, processSlotsB cfg dayName Status.ca slots ctr =
      (slots.map (fun sl => (sl.id, caSlot)), ctr) := by
  intro slots
  induction slots with
  | nil => intro ctr; rfl
  | cons sl rest ih =>
    intro ctr
    simp [processSlotsB, ih]

lemma processSlotsB_event (cfg : SemesterConfig) (dayName : String) :
    ∀ slots ctr, processSlotsB cfg dayName Status.event slots ctr =
      (slots.map (fun sl => (sl.id, eventSlot)), ctr) := by
  intro slots
  induction slots with
  | nil => intro ctr; rfl
  | cons sl rest ih =>
    intro ctr
    simp [processSlotsB, ih]

lemma workingSlotA_ctr_other (cfg : SemesterConfig) (dayName slotId : String)
    (ctr : Counters) (sid : String)
    (h : ∀ subId, cfg.weeklyPattern dayName slotId = some subId → subId ≠ sid) :
    (workingSlotA cfg dayName slotId ctr).2 sid = ctr sid := by
  unfold workingSlotA
  rcases hpat : cfg.weeklyPattern dayName slotId with _ | subId
  · rfl
  · dsimp only
    rcases hfind : cfg.subjects.find? (fun x => x.id == subId) with _ | sub
    · rw [hfind]
    · rw [hfind]
      dsimp only
      split
      · dsimp only
        rw [if_neg (Ne.symm (h subId hpat))]
      · rfl

lemma workingSlotB_ctr_other (cfg : SemesterConfig) (dayName slotId : String)
    (ctr : Counters) (sid : String)
    (h : ∀ subId, cfg.weeklyPattern dayName slotId = some subId → subId ≠ sid) :
    (workingSlotB cfg dayName slotId ctr).2 sid = ctr sid := by
  unfold workingSlotB
  rcases hpat : cfg.weeklyPattern dayName slotId with _ | subId
  · rfl
  · dsimp only
    rcases hfind : cfg.subjects.find? (fun x => x.id == subId) with _ | sub
    · rw [hfind]
    · rw [hfind]
      dsimp only
      split
      · dsimp only
        rw [if_neg (Ne.symm (h subId hpat))]
      · rfl

lemma processSlotsA_working_cons (cfg : SemesterConfig) (dayName : String)
    (sl : SlotDefinition) (rest : List SlotDefinition) (ctr : Counters) :
    processSlotsA cfg dayName Status.working (sl :: rest) ctr =
      ((sl.id, (workingSlotA cfg dayName sl.id ctr).1) ::
        (processSlotsA cfg dayName Status.working rest
          (workingSlotA cfg dayName sl.id ctr).2).1,
       (processSlotsA cfg dayName Status.working rest
          (workingSlotA cfg dayName sl.id ctr).2).2) := by
  simp [processSlotsA]

lemma processSlotsB_working_cons (cfg : SemesterConfig) (dayName : String)
    (sl : SlotDefinition) (rest : List SlotDefinition) (ctr : Counters) :
    processSlotsB cfg dayName Status.working (sl :: rest) ctr =
      ((sl.id, (workingSlotB cfg dayName sl.id ctr).1) ::
        (processSlotsB cfg dayName Status.working rest
          (workingSlotB cfg dayName sl.id ctr).2).1,
       (processSlotsB cfg dayName Status.working rest
          (workingSlotB cfg dayName sl.id ctr).2).2) := by
  simp [processSlotsB]

lemma processSlotsA_occ_working (cfg : SemesterConfig) (s : Subject)
    (Hfind : cfg.subjects.find? (fun x => x.id == s.id) = some s) (HN : 0 < s.totalLUs)
    (dayName : String) :
    ∀ slots ctr,
      ctr s.id ≤ (processSlotsA cfg dayName Status.working slots ctr).2 s.id ∧
      ((processSlotsA cfg dayName Status.working slots ctr).1.filter
          (fun p => cfg.weeklyPattern dayName p.1 == some s.id)).map Prod.snd =
        occRangeA s (ctr s.id) ((processSlotsA cfg dayName Status.working slots ctr).2 s.id) := by
  intro slots
  induction slots with
  | nil =>
    intro ctr
    exact ⟨le_refl _, by simp [processSlotsA, occRangeA_self]⟩
  | cons sl rest ih =>
    intro ctr
    rw [processSlotsA_working_cons]
    by_cases hpat : cfg.weeklyPattern dayName sl.id = some s.id
    · -- this slot is occupied by the tracked subject
      have hW : workingSlotA cfg dayName sl.id ctr =
          (trackedSlotA s (ctr s.id + 1),
           fun k => if k = s.id then ctr s.id + 1 else ctr k) := by
        unfold workingSlotA
        rw [hpat]
        dsimp only
        rw [Hfind]
        dsimp only
        rw [if_pos HN]
      rw [hW]
      obtain ⟨hmono, hocc⟩ := ih (fun k => if k = s.id then ctr s.id + 1 else ctr k)
      simp only [eq_self_iff_true, if_true] at hmono hocc
      constructor
      · dsimp only
        omega
      · dsimp only
        rw [List.filter_cons_of_pos (by simp [hpat]), List.map_cons, hocc,
          occRangeA_cons s (ctr s.id) _ (by omega)]
    · -- some other subject (or none) occupies this slot
      have hctr : (workingSlotA cfg dayName sl.id ctr).2 s.id = ctr s.id := by
        apply workingSlotA_ctr_other
        intro subId hsub heq
        rw [heq] at hsub
        exact hpat hsub
      obtain ⟨hmono, hocc⟩ := ih (workingSlotA cfg dayName sl.id ctr).2
      rw [hctr] at hmono hocc
      constructor
      · exact hmono
      · rw [List.filter_cons_of_neg (by simpa using hpat), hocc]

lemma processSlotsB_occ_working (cfg : SemesterConfig) (s : Subject)
    (Hfind : cfg.subjects.find? (fun x => x.id == s.id) = some s) (HN : 0 < s.totalLUs)
    (dayName : String) :
    ∀ slots ctr,
      ctr s.id ≤ (processSlotsB cfg dayName Status.working slots ctr).2 s.id ∧
      ((processSlotsB cfg dayName Status.working slots ctr).1.map Prod.snd).filter
          (fun m => m.type == SlotType.subject && m.subjectId == some s.id) =
        occRangeB s (ctr s.id) ((processSlotsB cfg dayName Status.working slots ctr).2 s.id) := by
  intro slots
  induction slots with
  | nil =>
    intro ctr
    exact ⟨le_refl _, by simp [processSlotsB, occRangeB_self]⟩
  | cons sl rest ih =>
    intro ctr
    rw [processSlotsB_working_cons]
    by_cases hpat : cfg.weeklyPattern dayName sl.id = some s.id
    · have hW : workingSlotB cfg dayName sl.id ctr =
          (trackedSlotB s (ctr s.id + 1),
           fun k => if k = s.id then ctr s.id + 1 else ctr k) := by
        unfold workingSlotB
        rw [hpat]
        dsimp only
        rw [Hfind]
        dsimp only
        rw [if_pos HN]
      rw [hW]
      obtain ⟨hmono, hocc⟩ := ih (fun k => if k = s.id then ctr s.id + 1 else ctr k)
      simp only [eq_self_iff_true, if_true] at hmono hocc
      constructor
      · dsimp only
        omega
      · dsimp only
        rw [List.map_cons,
          List.filter_cons_of_pos (by simp [trackedSlotB_kind s (ctr s.id + 1)]), hocc,
          occRangeB_cons s (ctr s.id) _ (by omega)]
    · have hctr : (workingSlotB cfg dayName sl.id ctr).2 s.id = ctr s.id := by
        apply workingSlotB_ctr_other
        intro subId hsub heq
        rw [heq] at hsub
        exact hpat hsub
      have hdrop : ((workingSlotB cfg dayName sl.id ctr).1.type == SlotType.subject &&
          (workingSlotB cfg dayName sl.id ctr).1.subjectId == some s.id) = false := by
        unfold workingSlotB
        rcases hp : cfg.weeklyPattern dayName sl.id with _ | subId
        · rfl
        · have hne : subId ≠ s.id := by
            intro heq
            rw [heq] at hp
            exact hpat hp
          dsimp only
          rcases hf : cfg.subjects.find? (fun x => x.id == subId) with _ | sub
          · rw [hf]
            rfl
          · rw [hf]
            have hid : sub.id = subId := find?_subject_id hf
            dsimp only
            split
            · obtain ⟨_, hsid⟩ := trackedSlotB_kind sub (ctr subId + 1)
              simp [hsid, hid, hne]
            · simp [hid, hne]
      obtain ⟨hmono, hocc⟩ := ih (workingSlotB cfg dayName sl.id ctr).2
      rw [hctr] at hmono hocc
      constructor
      · exact hmono
      · rw [List.map_cons, List.filter_cons_of_neg (by simp [hdrop]), hocc]

lemma occsA_nil (cfg : SemesterConfig) (sid : String) : occsA cfg sid [] = [] := rfl

lemma occsB_nil (sid : String) : occsB sid [] = [] := rfl

lemma day_occ_A (cfg : SemesterConfig) (s : Subject)
    (Hfind : cfg.subjects.find? (fun x => x.id == s.id) = some s) (HN : 0 < s.totalLUs)
    (dayName : String) (st : Status) (ctr : Counters) :
    ctr s.id ≤ (processSlotsA cfg dayName st cfg.slots ctr).2 s.id ∧
    (if st = Status.working then
       ((processSlotsA cfg dayName st cfg.slots ctr).1.filter
         (fun p => cfg.weeklyPattern dayName p.1 == some s.id)).map Prod.snd
     else []) = occRangeA s (ctr s.id) ((processSlotsA cfg dayName st cfg.slots ctr).2 s.id) := by
  by_cases hw : st = Status.working
  · subst hw
    rw [if_pos rfl]
    exact processSlotsA_occ_working cfg s Hfind HN dayName cfg.slots ctr
  · rw [if_neg hw, processSlotsA_ctr_nonworking cfg dayName st hw cfg.slots ctr]
    exact ⟨le_refl _, (occRangeA_self s _).symm⟩

lemma filter_occB_map_const {m0 : SlotMapping} (h : (m0.type == SlotType.subject) = false)
    (sid : String) (l : List SlotDefinition) :
    ((l.map (fun sl => (sl.id, m0))).map Prod.snd).filter
      (fun m => m.type == SlotType.subject && m.subjectId == some sid) = [] := by
  rw [List.map_map, List.filter_eq_nil_iff]
  intro a ha
  obtain ⟨sl, _, hsl⟩ := List.mem_map.mp ha
  simp only [Function.comp_apply] at hsl
  rw [← hsl]
  simp [h]

lemma day_occ_B (cfg : SemesterConfig) (s : Subject)
    (Hfind : cfg.subjects.find? (fun x => x.id == s.id) = some s) (HN : 0 < s.totalLUs)
    (dayName : String) (st : Status) (ctr : Counters) :
    ctr s.id ≤ (processSlotsB cfg dayName st cfg.slots ctr).2 s.id ∧
    ((processSlotsB cfg dayName st cfg.slots ctr).1.map Prod.snd).filter
        (fun m => m.type == SlotType.subject && m.subjectId == some s.id) =
      occRangeB s (ctr s.id) ((processSlotsB cfg dayName st cfg.slots ctr).2 s.id) := by
  cases st with
  | working => exact processSlotsB_occ_working cfg s Hfind HN dayName cfg.slots ctr
  | ca =>
    rw [processSlotsB_ca cfg dayName cfg.slots ctr]
    exact ⟨le_refl _, by
      rw [filter_occB_map_const (by rfl) s.id cfg.slots, occRangeB_self]⟩
  | event =>
    rw [processSlotsB_event cfg dayName cfg.slots ctr]
    exact ⟨le_refl _, by
      rw [filter_occB_map_const (by rfl) s.id cfg.slots, occRangeB_self]⟩
  | holiday =>
    rw [processSlotsB_nonworking cfg dayName Status.holiday (by simp) (by simp) (by simp)
      cfg.slots ctr]
    exact ⟨le_refl _, by
      rw [filter_occB_map_const (by rfl) s.id cfg.slots, occRangeB_self]⟩
  | weekend =>
    rw [processSlotsB_nonworking cfg dayName Status.weekend (by simp) (by simp) (by simp)
      cfg.slots ctr]
    exact ⟨le_refl _, by
      rw [filter_occB_map_const (by rfl) s.id cfg.slots, occRangeB_self]⟩
  | blocked =>
    rw [processSlotsB_nonworking cfg dayName Status.blocked (by simp) (by simp) (by simp)
      cfg.slots ctr]
    exact ⟨le_refl _, by
      rw [filter_occB_map_const (by rfl) s.id cfg.slots, occRangeB_self]⟩

lemma mkDayA_occ (cfg : SemesterConfig) (s : Subject)
    (Hfind : cfg.subjects.find? (fun x => x.id == s.id) = some s) (HN : 0 < s.totalLUs)
    (anchor : Int) (ctr : Counters) (d : Int) (ty : DayType) (caRef : Option CAConfig) :
    ctr s.id ≤ (mkDayA cfg anchor ctr d ty caRef).2 s.id ∧
    (if (mkDayA cfg anchor ctr d ty caRef).1.status = Status.working then
       ((mkDayA cfg anchor ctr d ty caRef).1.slotMappings.filter
         (fun p => cfg.weeklyPattern (mkDayA cfg anchor ctr d ty caRef).1.dayName p.1 ==
           some s.id)).map Prod.snd
     else []) = occRangeA s (ctr s.id) ((mkDayA cfg anchor ctr d ty caRef).2 s.id) :=
  day_occ_A cfg s Hfind HN (getDayName d) _ ctr

lemma mkDayB_occ (cfg : SemesterConfig) (s : Subject)
    (Hfind : cfg.subjects.find? (fun x => x.id == s.id) = some s) (HN : 0 < s.totalLUs)
    (anchor : Int) (ctr : Counters) (d : Int) (ty : DayType) (phaseId : Option String)
    (caRef : Option CAConfig) :
    ctr s.id ≤ (mkDayB cfg anchor ctr d ty phaseId caRef).2 s.id ∧
    ((mkDayB cfg anchor ctr d ty phaseId caRef).1.slotMappings.map Prod.snd).filter
        (fun m => m.type == SlotType.subject && m.subjectId == some s.id) =
      occRangeB s (ctr s.id) ((mkDayB cfg anchor ctr d ty phaseId caRef).2 s.id) :=
  day_occ_B cfg s Hfind HN (getDayName d) _ ctr

lemma fillA_occ (cfg : SemesterConfig) (s : Subject)
    (Hfind : cfg.subjects.find? (fun x => x.id == s.id) = some s) (HN : 0 < s.totalLUs)
    (endS anchor lastFill : Int) (ca : CAConfig) (caD evD : List Int) :
    ∀ fuel d safety ctr,
      ctr s.id ≤ (fillA cfg endS anchor lastFill ca caD evD fuel d safety ctr).2.2.2 s.id ∧
      occsA cfg s.id (fillA cfg endS anchor lastFill ca caD evD fuel d safety ctr).1 =
        occRangeA s (ctr s.id)
          ((fillA cfg endS anchor lastFill ca caD evD fuel d safety ctr).2.2.2 s.id) := by
  intro fuel
  induction fuel with
  | zero =>
    intro d safety ctr
    exact ⟨le_refl _, by simp [fillA, occsA_nil, occRangeA_self]⟩
  | succ n ih =>
    intro d safety ctr
    by_cases hcond : d ≤ lastFill ∧ safety < MAXDAYS
    · by_cases hd : endS < d
      · rw [fillA_past_end cfg endS anchor lastFill ca caD evD d hd (n + 1) safety ctr]
        exact ⟨le_refl _, by simp [occsA_nil, occRangeA_self]⟩
      · have heq : fillA cfg endS anchor lastFill ca caD evD (n + 1) d safety ctr =
            ((mkDayA cfg anchor ctr d
                (if caD.contains d then DayType.ca else if evD.contains d then DayType.event
                  else DayType.normal) (some ca)).1 ::
              (fillA cfg endS anchor lastFill ca caD evD n (d + 1) (safety + 1)
                (mkDayA cfg anchor ctr d
                  (if caD.contains d then DayType.ca else if evD.contains d then DayType.event
                    else DayType.normal) (some ca)).2).1,
             (fillA cfg endS anchor lastFill ca caD evD n (d + 1) (safety + 1)
                (mkDayA cfg anchor ctr d
                  (if caD.contains d then DayType.ca else if evD.contains d then DayType.event
                    else DayType.normal) (some ca)).2).2) := by
          simp only [fillA]
          rw [if_pos hcond, addDayA_of_le cfg endS anchor ctr d _ (some ca) hd]
        rw [heq]
        obtain ⟨hm1, ho1⟩ := mkDayA_occ cfg s Hfind HN anchor ctr d
          (if caD.contains d then DayType.ca else if evD.contains d then DayType.event
            else DayType.normal) (some ca)
        obtain ⟨hm2, ho2⟩ := ih (d + 1) (safety + 1)
          (mkDayA cfg anchor ctr d
            (if caD.contains d then DayType.ca else if evD.contains d then DayType.event
              else DayType.normal) (some ca)).2
        refine ⟨le_trans hm1 hm2, ?_⟩
        rw [occsA_cons, ho1, ho2]
        exact occRangeA_append s _ _ _ hm1 hm2
    · have heq : fillA cfg endS anchor lastFill ca caD evD (n + 1) d safety ctr =
          ([], d, safety, ctr) := by
        simp only [fillA]
        rw [if_neg hcond]
      rw [heq]
      exact ⟨le_refl _, by simp [occsA_nil, occRangeA_self]⟩

lemma phasesA_occ (cfg : SemesterConfig) (s : Subject)
    (Hfind : cfg.subjects.find? (fun x => x.id == s.id) = some s) (HN : 0 < s.totalLUs)
    (endS anchor : Int) :
    ∀ cas cursor safety ctr,
      ctr s.id ≤ (phasesA cfg endS anchor cas cursor safety ctr).2.2.2 s.id ∧
      occsA cfg s.id (phasesA cfg endS anchor cas cursor safety ctr).1 =
        occRangeA s (ctr s.id)
          ((phasesA cfg endS anchor cas cursor safety ctr).2.2.2 s.id) := by
  intro cas
  induction cas with
  | nil =>
    intro cursor safety ctr
    exact ⟨le_refl _, by simp [phasesA, occsA_nil, occRangeA_self]⟩
  | cons ca rest ih =>
    intro cursor safety ctr
    simp only [phasesA]
    split
    · exact ⟨le_refl _, by simp [occsA_nil, occRangeA_self]⟩
    · obtain ⟨hm1, ho1⟩ := fillA_occ cfg s Hfind HN endS anchor
        (phasePlanA cfg endS cursor ca).2.2 ca (phasePlanA cfg endS cursor ca).1
        (phasePlanA cfg endS cursor ca).2.1 (MAXDAYS + 1 - safety) cursor safety ctr
      obtain ⟨hm2, ho2⟩ := ih
        (fillA cfg endS anchor (phasePlanA cfg endS cursor ca).2.2 ca
          (phasePlanA cfg endS cursor ca).1 (phasePlanA cfg endS cursor ca).2.1
          (MAXDAYS + 1 - safety) cursor safety ctr).2.1
        (fillA cfg endS anchor (phasePlanA cfg endS cursor ca).2.2 ca
          (phasePlanA cfg endS cursor ca).1 (phasePlanA cfg endS cursor ca).2.1
          (MAXDAYS + 1 - safety) cursor safety ctr).2.2.1
        (fillA cfg endS anchor (phasePlanA cfg endS cursor ca).2.2 ca
          (phasePlanA cfg endS cursor ca).1 (phasePlanA cfg endS cursor ca).2.1
          (MAXDAYS + 1 - safety) cursor safety ctr).2.2.2
      refine ⟨le_trans hm1 hm2, ?_⟩
      rw [occsA_append, ho1, ho2]
      exact occRangeA_append s _ _ _ hm1 hm2

lemma tailFillA_occ (cfg : SemesterConfig) (s : Subject)
    (Hfind : cfg.subjects.find? (fun x => x.id == s.id) = some s) (HN : 0 < s.totalLUs)
    (endS anchor : Int) :
    ∀ fuel d safety ctr,
      ∃ c2, ctr s.id ≤ c2 ∧
        occsA cfg s.id (tailFillA cfg endS anchor fuel d safety ctr) =
          occRangeA s (ctr s.id) c2 := by
  intro fuel
  induction fuel with
  | zero =>
    intro d safety ctr
    exact ⟨ctr s.id, le_refl _, by simp [tailFillA, occsA_nil, occRangeA_self]⟩
  | succ n ih =>
    intro d safety ctr
    by_cases hcond : d ≤ endS ∧ safety < MAXDAYS
    · have heq : tailFillA cfg endS anchor (n + 1) d safety ctr =
          (mkDayA cfg anchor ctr d DayType.normal none).1 ::
            tailFillA cfg endS anchor n (d + 1) (safety + 1)
              (mkDayA cfg anchor ctr d DayType.normal none).2 := by
        simp only [tailFillA]
        rw [if_pos hcond, addDayA_of_le cfg endS anchor ctr d DayType.normal none (by omega)]
      rw [heq]
      obtain ⟨hm1, ho1⟩ := mkDayA_occ cfg s Hfind HN anchor ctr d DayType.normal none
      obtain ⟨c2, hm2, ho2⟩ := ih (d + 1) (safety + 1)
        (mkDayA cfg anchor ctr d DayType.normal none).2
      refine ⟨c2, le_trans hm1 hm2, ?_⟩
      rw [occsA_cons, ho1, ho2]
      exact occRangeA_append s _ _ _ hm1 hm2
    · have heq : tailFillA cfg endS anchor (n + 1) d safety ctr = [] := by
        simp only [tailFillA]
        rw [if_neg hcond]
      rw [heq]
      exact ⟨ctr s.id, le_refl _, by simp [occsA_nil, occRangeA_self]⟩

lemma dayLoopB_occ (cfg : SemesterConfig) (s : Subject)
    (Hfind : cfg.subjects.find? (fun x => x.id == s.id) = some s) (HN : 0 < s.totalLUs)
    (endS anchor limit : Int) (ca : CAConfig) (caD evD : List Int) :
    ∀ fuel d ctr,
      ctr s.id ≤ (dayLoopB cfg endS anchor limit ca caD evD fuel d ctr).2 s.id ∧
      occsB s.id (dayLoopB cfg endS anchor limit ca caD evD fuel d ctr).1 =
        occRangeB s (ctr s.id)
          ((dayLoopB cfg endS anchor limit ca caD evD fuel d ctr).2 s.id) := by
  intro fuel
  induction fuel with
  | zero =>
    intro d ctr
    exact ⟨le_refl _, by simp [dayLoopB, occsB_nil, occRangeB_self]⟩
  | succ n ih =>
    intro d ctr
    by_cases hcond : d < limit ∧ d ≤ endS
    · have heq : dayLoopB cfg endS anchor limit ca caD evD (n + 1) d ctr =
          ((mkDayB cfg anchor ctr d
              (if caD.contains d then DayType.ca else if evD.contains d then DayType.event
                else DayType.normal) (some ca.id) (some ca)).1 ::
            (dayLoopB cfg endS anchor limit ca caD evD n (d + 1)
              (mkDayB cfg anchor ctr d
                (if caD.contains d then DayType.ca else if evD.contains d then DayType.event
                  else DayType.normal) (some ca.id) (some ca)).2).1,
           (dayLoopB cfg endS anchor limit ca caD evD n (d + 1)
              (mkDayB cfg anchor ctr d
                (if caD.contains d then DayType.ca else if evD.contains d then DayType.event
                  else DayType.normal) (some ca.id) (some ca)).2).2) := by
        simp only [dayLoopB]
        rw [if_pos hcond]
      rw [heq]
      obtain ⟨hm1, ho1⟩ := mkDayB_occ cfg s Hfind HN anchor ctr d
        (if caD.contains d then DayType.ca else if evD.contains d then DayType.event
          else DayType.normal) (some ca.id) (some ca)
      obtain ⟨hm2, ho2⟩ := ih (d + 1)
        (mkDayB cfg anchor ctr d
          (if caD.contains d then DayType.ca else if evD.contains d then DayType.event
            else DayType.normal) (some ca.id) (some ca)).2
      refine ⟨le_trans hm1 hm2, ?_⟩
      rw [occsB_cons, ho1, ho2]
      exact occRangeB_append s _ _ _ hm1 hm2
    · have heq : dayLoopB cfg endS anchor limit ca caD evD (n + 1) d ctr = ([], ctr) := by
        simp only [dayLoopB]
        rw [if_neg hcond]
      rw [heq]
      exact ⟨le_refl _, by simp [occsB_nil, occRangeB_self]⟩

lemma phasesB_occ (cfg : SemesterConfig) (s : Subject)
    (Hfind : cfg.subjects.find? (fun x => x.id == s.id) = some s) (HN : 0 < s.totalLUs)
    (endS anchor : Int) :
    ∀ cas cursor ctr,
      ctr s.id ≤ (phasesB cfg endS anchor cas cursor ctr).2.2 s.id ∧
      occsB s.id (phasesB cfg endS anchor cas cursor ctr).1 =
        occRangeB s (ctr s.id) ((phasesB cfg endS anchor cas cursor ctr).2.2 s.id) := by
  intro cas
  induction cas with
  | nil =>
    intro cursor ctr
    exact ⟨le_refl _, by simp [phasesB, occsB_nil, occRangeB_self]⟩
  | cons ca rest ih =>
    intro cursor ctr
    simp only [phasesB]
    split
    · exact dayLoopB_occ cfg s Hfind HN endS anchor (phaseLimitB endS cursor ca) ca
        (phasePlanB cfg endS cursor ca).1 (phasePlanB cfg endS cursor ca).2
        (phaseLimitB endS cursor ca - cursor).toNat cursor ctr
    · obtain ⟨hm1, ho1⟩ := dayLoopB_occ cfg s Hfind HN endS anchor
        (phaseLimitB endS cursor ca) ca (phasePlanB cfg endS cursor ca).1
        (phasePlanB cfg endS cursor ca).2 (phaseLimitB endS cursor ca - cursor).toNat cursor ctr
      obtain ⟨hm2, ho2⟩ := ih (phaseLimitB endS cursor ca)
        (dayLoopB cfg endS anchor (phaseLimitB endS cursor ca) ca
          (phasePlanB cfg endS cursor ca).1 (phasePlanB cfg endS cursor ca).2
          (phaseLimitB endS cursor ca - cursor).toNat cursor ctr).2
      refine ⟨le_trans hm1 hm2, ?_⟩
      rw [occsB_append, ho1, ho2]
      exact occRangeB_append s _ _ _ hm1 hm2

lemma tailFillB_occ (cfg : SemesterConfig) (s : Subject)
    (Hfind : cfg.subjects.find? (fun x => x.id == s.id) = some s) (HN : 0 < s.totalLUs)
    (endS anchor : Int) :
    ∀ fuel d ctr,
      ∃ c2, ctr s.id ≤ c2 ∧
        occsB s.id (tailFillB cfg endS anchor fuel d ctr) = occRangeB s (ctr s.id) c2 := by
  intro fuel
  induction fuel with
  | zero =>
    intro d ctr
    exact ⟨ctr s.id, le_refl _, by simp [tailFillB, occsB_nil, occRangeB_self]⟩
  | succ n ih =>
    intro d ctr
    by_cases hcond : d ≤ endS
    · have heq : tailFillB cfg endS anchor (n + 1) d ctr =
          (mkDayB cfg anchor ctr d DayType.normal (some "post-ca-phase") none).1 ::
            tailFillB cfg endS anchor n (d + 1)
              (mkDayB cfg anchor ctr d DayType.normal (some "post-ca-phase") none).2 := by
        simp only [tailFillB]
        rw [if_pos hcond]
      rw [heq]
      obtain ⟨hm1, ho1⟩ := mkDayB_occ cfg s Hfind HN anchor ctr d DayType.normal
        (some "post-ca-phase") none
      obtain ⟨c2, hm2, ho2⟩ := ih (d + 1)
        (mkDayB cfg anchor ctr d DayType.normal (some "post-ca-phase") none).2
      refine ⟨c2, le_trans hm1 hm2, ?_⟩
      rw [occsB_cons, ho1, ho2]
      exact occRangeB_append s _ _ _ hm1 hm2
    · have heq : tailFillB cfg endS anchor (n + 1) d ctr = [] := by
        simp only [tailFillB]
        rw [if_neg hcond]
      rw [heq]
      exact ⟨ctr s.id, le_refl _, by simp [occsB_nil, occRangeB_self]⟩

lemma genA_occ (cfg : SemesterConfig) (s : Subject)
    (Hfind : cfg.subjects.find? (fun x => x.id == s.id) = some s) (HN : 0 < s.totalLUs) :
    ∃ M, occsA cfg s.id (generateMasterScheduleA cfg) = occRangeA s 0 M := by
  simp only [generateMasterScheduleA]
  split
  · exact ⟨0, by simp [occsA_nil, occRangeA_self]⟩
  · split
    · next start endS h1 h2 =>
      split
      · exact ⟨0, by simp [occsA_nil, occRangeA_self]⟩
      · split
        · exact ⟨0, by simp [occsA_nil, occRangeA_self]⟩
        · obtain ⟨hm1, ho1⟩ := phasesA_occ cfg s Hfind HN endS start cfg.cas start 0
            (fun _ => 0)
          obtain ⟨c2, hm2, ho2⟩ := tailFillA_occ cfg s Hfind HN endS start
            (MAXDAYS + 1 - (phasesA cfg endS start cfg.cas start 0 (fun _ => 0)).2.2.1)
            (phasesA cfg endS start cfg.cas start 0 (fun _ => 0)).2.1
            (phasesA cfg endS start cfg.cas start 0 (fun _ => 0)).2.2.1
            (phasesA cfg endS start cfg.cas start 0 (fun _ => 0)).2.2.2
          refine ⟨c2, ?_⟩
          rw [occsA_append, ho1, ho2]
          exact occRangeA_append s 0 _ c2 hm1 hm2
    · exact ⟨0, by simp [occsA_nil, occRangeA_self]⟩

lemma genB_occ (cfg : SemesterConfig) (s : Subject)
    (Hfind : cfg.subjects.find? (fun x => x.id == s.id) = some s) (HN : 0 < s.totalLUs) :
    ∃ M, occsB s.id (generateMasterScheduleB cfg) = occRangeB s 0 M := by
  simp only [generateMasterScheduleB]
  split
  · exact ⟨0, by simp [occsB_nil, occRangeB_self]⟩
  · split
    · next start endS h1 h2 =>
      obtain ⟨hm1, ho1⟩ := phasesB_occ cfg s Hfind HN endS start cfg.cas start (fun _ => 0)
      obtain ⟨c2, hm2, ho2⟩ := tailFillB_occ cfg s Hfind HN endS start
        (endS + 1 - (phasesB cfg endS start cfg.cas start (fun _ => 0)).2.1).toNat
        (phasesB cfg endS start cfg.cas start (fun _ => 0)).2.1
        (phasesB cfg endS start cfg.cas start (fun _ => 0)).2.2
      refine ⟨c2, ?_⟩
      rw [occsB_append, ho1, ho2]
      exact occRangeB_append s 0 _ c2 hm1 hm2
    · exact ⟨0, by simp [occsB_nil, occRangeB_self]⟩

/-- **C4.** For a subject with `totalLUs > 0` found in the subject list under
its own id, each generator's chronological stream of that subject's slot
occupancies (date order, slot-definition order within a day) is exactly the
tracked-slot contents at counter values 1, 2, 3, ...; so the Nth occupancy
carries LU number N whenever N ≤ totalLUs, and every occupancy past totalLUs
is the fixed "completed" overflow marker — label "name - completed", grey
color #94a3b8 — a literal record built without any module-range or per-LU
course-id lookup. -/
theorem lu_sequence (cfg : SemesterConfig) (s : Subject)
    (Hfind : cfg.subjects.find? (fun x => x.id == s.id) = some s)
    (HN : 0 < s.totalLUs) :
    (∃ M, occsA cfg s.id (generateMasterScheduleA cfg) =
        (List.range M).map (fun j => trackedSlotA s (j + 1))) ∧
    (∃ M, occsB s.id (generateMasterScheduleB cfg) =
        (List.range M).map (fun j => trackedSlotB s (j + 1))) ∧
    (∀ n, 1 ≤ n → n ≤ s.totalLUs →
        (trackedSlotA s n).label = s.name ++ " - LU " ++ toString n ∧
        (trackedSlotB s n).label = s.name ++ " - LU " ++ toString n ∧
        (trackedSlotB s n).luNumber = some n) ∧
    (∀ n, s.totalLUs < n →
        trackedSlotA s n =
          { type := .subject, label := s.name ++ " - completed",
            color := some "#94a3b8", subjectId := none, luNumber := none,
            courseId := none } ∧
        trackedSlotB s n =
          { type := .subject, label := s.name ++ " - completed",
            color := some "#94a3b8", subjectId := some s.id, luNumber := none,
            courseId := s.courseId }) := by
  refine ⟨?_, ?_, ?_, ?_⟩
  · obtain ⟨M, hM⟩ := genA_occ cfg s Hfind HN
    exact ⟨M, by rw [hM]; simp [occRangeA]⟩
  · obtain ⟨M, hM⟩ := genB_occ cfg s Hfind HN
    exact ⟨M, by rw [hM]; simp [occRangeB]⟩
  · intro n h1 h2
    refine ⟨?_, ?_, ?_⟩
    · rw [trackedSlotA, if_pos h2]
    · rw [trackedSlotB, if_pos h2]
    · rw [trackedSlotB, if_pos h2]
  · intro n hn
    constructor
    · rw [trackedSlotA, if_neg (by omega)]
    · rw [trackedSlotB, if_neg (by omega)]

lemma tallyRow_le (cfg : SemesterConfig) (subjectId : String) (row : ScheduleRow) :
    ∀ (l : List (String × SlotMapping)) (acc : Nat × Nat), acc.2 ≤ acc.1 →
      (l.foldl
        (fun acc p =>
          if cfg.weeklyPattern row.dayName p.1 == some subjectId then
            (acc.1 + 1,
             if p.2.type == SlotType.subject && !(strEndsWith p.2.label " - completed") then
               acc.2 + 1
             else acc.2)
          else acc)
        acc).2 ≤
      (l.foldl
        (fun acc p =>
          if cfg.weeklyPattern row.dayName p.1 == some subjectId then
            (acc.1 + 1,
             if p.2.type == SlotType.subject && !(strEndsWith p.2.label " - completed") then
               acc.2 + 1
             else acc.2)
          else acc)
        acc).1 := by
  intro l
  induction l with
  | nil => intro acc h; exact h
  | cons p rest ih =>
    intro acc h
    simp only [List.foldl_cons]
    apply ih
    split
    · dsimp only
      split <;> omega
    · exact h

lemma utilizationTally_le (cfg : SemesterConfig) (subjectId : String)
    (schedule : List ScheduleRow) :
    (utilizationTally cfg subjectId schedule).2 ≤ (utilizationTally cfg subjectId schedule).1 := by
  simp only [utilizationTally]
  have aux : ∀ (l : List ScheduleRow) (acc : Nat × Nat), acc.2 ≤ acc.1 →
      (l.foldl
        (fun acc row =>
          if row.status = .working then
            row.slotMappings.foldl
              (fun acc p =>
                if cfg.weeklyPattern row.dayName p.1 == some subjectId then
                  (acc.1 + 1,
                   if p.2.type == SlotType.subject && !(strEndsWith p.2.label " - completed") then
                     acc.2 + 1
                   else acc.2)
                else acc)
              acc
          else acc)
        acc).2 ≤
      (l.foldl
        (fun acc row =>
          if row.status = .working then
            row.slotMappings.foldl
              (fun acc p =>
                if cfg.weeklyPattern row.dayName p.1 == some subjectId then
                  (acc.1 + 1,
                   if p.2.type == SlotType.subject && !(strEndsWith p.2.label " - completed") then
                     acc.2 + 1
                   else acc.2)
                else acc)
              acc
          else acc)
        acc).1 := by
    intro l
    induction l with
    | nil => intro acc h; exact h
    | cons row rest ih =>
      intro acc h
      simp only [List.foldl_cons]
      apply ih
      split
      · exact tallyRow_le cfg subjectId row row.slotMappings acc h
      · exact h
  exact aux schedule (0, 0) (le_refl 0)

/-- **C9.** For every configuration and schedule, every subject entry of
either variant's `calculateUtilizationStats` satisfies
`utilizedSlots + unutilizedSlots = availableSlots` with `unutilizedSlots`
non-negative. -/
theorem utilization_invariant (cfg : SemesterConfig) (schedule : List ScheduleRow) :
    (∀ e ∈ calculateUtilizationStatsA cfg schedule,
        (e.utilizedSlots : Int) + e.unutilizedSlots = (e.availableSlots : Int) ∧
        0 ≤ e.unutilizedSlots) ∧
    (∀ e ∈ calculateUtilizationStatsB cfg schedule,
        (e.utilizedSlots : Int) + e.unutilizedSlots = (e.availableSlots : Int) ∧
        0 ≤ e.unutilizedSlots) := by
  constructor
  · intro e he
    simp only [calculateUtilizationStatsA, List.mem_map] at he
    obtain ⟨subject, hs, rfl⟩ := he
    have hle := utilizationTally_le cfg subject.id schedule
    by_cases h0 : subject.totalLUs = 0
    · simp only [h0, reduceIte]
      constructor <;> omega
    · simp only [h0, reduceIte]
      constructor <;> omega
  · intro e he
    simp only [calculateUtilizationStatsB, List.mem_map] at he
    obtain ⟨subject, hs, rfl⟩ := he
    have hle := utilizationTally_le cfg subject.id schedule
    dsimp only
    constructor <;> omega

lemma statsA_fold_learning (l : List ScheduleRow) :
    ∀ (init : ProgramStatsA),
      (l.foldl
        (fun stats row =>
          let stats := if row.dayName = "Sunday" then { stats with sundays := stats.sundays + 1 } else stats
          let stats := if row.status = .holiday then { stats with holidays := stats.holidays + 1 } else stats
          let stats := if row.status = .ca then { stats with assessmentDays := stats.assessmentDays + 1 } else stats
          let stats := if row.status = .event then { stats with eventDays := stats.eventDays + 1 } else stats
          if row.status = .working then
            let stats := { stats with workingDays := stats.workingDays + 1 }
            if (row.slotMappings.map Prod.snd).any (fun m => m.type == SlotType.subject) then
              { stats with learningDays := stats.learningDays + 1 }
            else stats
          else stats)
        init).learningDays =
      init.learningDays + l.countP (fun row =>
        row.status == Status.working &&
        (row.slotMappings.map Prod.snd).any (fun m => m.type == SlotType.subject)) := by
  induction l with
  | nil => intro init; simp
  | cons row rest ih =>
    intro init
    rw [List.foldl_cons, List.countP_cons, ih]
    dsimp only
    cases hst : row.status <;>
      by_cases hS : row.dayName = "Sunday" <;>
      by_cases hA : (row.slotMappings.map Prod.snd).any (fun m => m.type == SlotType.subject) <;>
      simp [hst, hS, hA] <;> omega

lemma statsB_fold_learning (l : List ScheduleRow) :
    ∀ (init : ProgramStatsB),
      (l.foldl
        (fun stats row =>
          let stats :=
            if row.status = .weekend then
              let stats := { stats with restDaysTotal := stats.restDaysTotal + 1 }
              let stats := if row.dayName = "Saturday" then { stats with restSaturdays := stats.restSaturdays + 1 } else stats
              if row.dayName = "Sunday" then { stats with restSundays := stats.restSundays + 1 } else stats
            else stats
          let stats := if row.status = .holiday then { stats with holidays := stats.holidays + 1 } else stats
          let stats := if row.status = .ca then { stats with assessmentDays := stats.assessmentDays + 1 } else stats
          let stats := if row.status = .event then { stats with eventDays := stats.eventDays + 1 } else stats
          if row.status = .working then
            let stats := { stats with workingDays := stats.workingDays + 1 }
            if (row.slotMappings.map Prod.snd).any
                (fun m => m.type == SlotType.subject && !(strEndsWith m.label " - completed")) then
              { stats with learningDays := stats.learningDays + 1 }
            else stats
          else stats)
        init).learningDays =
      init.learningDays + l.countP (fun row =>
        row.status == Status.working &&
        (row.slotMappings.map Prod.snd).any
          (fun m => m.type == SlotType.subject && !(strEndsWith m.label " - completed"))) := by
  induction l with
  | nil => intro init; simp
  | cons row rest ih =>
    intro init
    rw [List.foldl_cons, List.countP_cons, ih]
    dsimp only
    cases hst : row.status <;>
      by_cases hS7 : row.dayName = "Saturday" <;>
      by_cases hS : row.dayName = "Sunday" <;>
      by_cases hA : (row.slotMappings.map Prod.snd).any
        (fun m => m.type == SlotType.subject && !(strEndsWith m.label " - completed")) <;>
      simp [hst, hS7, hS, hA] <;> omega

/-- **C8 (amended).** Variant B's `learningDays` counts exactly the working
days carrying a non-overflow subject occupancy, as the spec words it; variant
A instead counts every working day with any subject-kind occupancy, so a
working day whose only subject occupancy is a " - completed" overflow marker
still raises its learningDays. -/
theorem learning_days_count (schedule : List ScheduleRow) :
    (calculateProgramStatsB schedule).learningDays = learningDaysSpec schedule ∧
    (calculateProgramStatsA schedule).learningDays =
      schedule.countP (fun row =>
        row.status == Status.working &&
        (row.slotMappings.map Prod.snd).any (fun m => m.type == SlotType.subject)) := by
  constructor
  · rw [calculateProgramStatsB, statsB_fold_learning, learningDaysSpec]
    simp
  · rw [calculateProgramStatsA, statsA_fold_learning]
    simp

/-- **C8 counterexample.** On a schedule of one working day whose only subject
occupancy is the " - completed" overflow marker, variant A's
`calculateProgramStats` reports one learning day while the spec's count —
working days with a non-overflow subject occupancy — is zero (variant B agrees
with the spec here). -/
theorem learning_days_counterexample :
    (calculateProgramStatsA [overflowOnlyRow]).learningDays = 1 ∧
    learningDaysSpec [overflowOnlyRow] = 0 ∧
    (calculateProgramStatsB [overflowOnlyRow]).learningDays = 0 := by
  decide

/-- **C7 (amended).** Variant B's `formatDate` is total and fails closed: on
every input — Date or string, valid or not — it returns a string, namely the
canonical rendering when the input resolves to a valid date and the sentinel
"0000-00-00" otherwise.  Variant A's `formatDate` renders valid dates the same
way but throws (date-fns `RangeError: Invalid time value`) instead of
returning a sentinel on an invalid date. -/
theorem format_date_total :
    (∀ i : DateInput, formatDateB i =
        match resolveDateInput i with
        | some serial => formatDate serial
        | none => "0000-00-00") ∧
    (∀ serial : Int, formatDateA (some serial) = Except.ok (formatDate serial)) ∧
    ¬ ∃ out, formatDateA none = Except.ok out := by
  refine ⟨fun i => ?_, fun serial => rfl, ?_⟩
  · cases h : resolveDateInput i <;> simp [formatDateB, h]
  · rintro ⟨out, hout⟩
    simp [formatDateA] at hout

/-- **C7 counterexample.** Variant A's `formatDate` on an invalid date does
not return a string: it propagates date-fns's thrown
`RangeError: Invalid time value`. -/
theorem format_date_counterexample :
    formatDateA none = Except.error "Invalid time value" := rfl

/-- **C2.** Failing evaluation: on a one-week term whose single phase has
`eventDays = 0` (and `duration = 2`), variant A classifies the three leading
working days of the phase window as event days — `slice(-eventDays)` with
`eventDays = 0` returns the whole window instead of an empty list — while
variant B (whose source comments "Correctly handle slices to avoid
slice(-0)") produces the empty event set the spec promises. -/
theorem zero_event_flood :
    (generateMasterScheduleA cfgZeroEvents).map (fun r => (r.date, r.status)) =
      [("2025-01-06", .event), ("2025-01-07", .event), ("2025-01-08", .event),
       ("2025-01-09", .ca), ("2025-01-10", .ca)] ∧
    (generateMasterScheduleB cfgZeroEvents).map (fun r => (r.date, r.status)) =
      [("2025-01-06", .working), ("2025-01-07", .working), ("2025-01-08", .ca),
       ("2025-01-09", .ca), ("2025-01-10", .working)] := by
  decide

/-- **C5.** Failing evaluation: on a one-week term whose single phase has
`duration = 1`, `eventDays = 0`, the window holds at least `block = 1` working
days, so per the claim its last working day is the one assessment day and no
day is an event day; variant A instead marks every earlier working day of the
window as an event day and no working day stays ordinary. -/
theorem short_window_block :
    (generateMasterScheduleA cfgOneBlock).map (fun r => (r.date, r.status)) =
      [("2025-02-03", .event), ("2025-02-04", .event), ("2025-02-05", .event),
       ("2025-02-06", .event), ("2025-02-07", .ca)] ∧
    (generateMasterScheduleB cfgOneBlock).map (fun r => (r.date, r.status)) =
      [("2025-02-03", .working), ("2025-02-04", .working), ("2025-02-05", .working),
       ("2025-02-06", .ca), ("2025-02-07", .working)] := by
  decide

/-- **C6.** Failing evaluation: with the start date after the end date,
variant A returns the empty schedule but variant B emits one Day Record for
the end date (its phase loop clamps the cursor back to the term end and the
trailing fill then materializes that day).  And neither variant rejects a term
over five years: variant A's guard `isAfter(start, addYears(start, 5))`
compares the start with a date five years later, which is never in the past,
so the six-year term also yields a non-empty schedule. -/
theorem empty_guard_bug :
    generateMasterScheduleA cfgStartAfterEnd = [] ∧
    (generateMasterScheduleB cfgStartAfterEnd).map (fun r => (r.date, r.status)) =
      [("2025-01-06", Status.working)] ∧
    (generateMasterScheduleA cfgSixYears).head?.isSome = true ∧
    (∀ s : Int, ¬ (addYearsSerial s 5 < s)) := by
  refine ⟨by decide, by decide, by decide, addYears5_not_lt⟩

/-- C1 witness: `schedule_dates_exact` instantiated at the concrete one-week
term, every hypothesis discharged by evaluation. -/
theorem schedule_dates_exact_witness :
    (parseISO cfgInterval.startDate = some 20094 ∧
     parseISO cfgInterval.endDate = some 20098 ∧
     (20094 : Int) ≤ 20098 ∧ ((20098 : Int) - 20094).toNat ≤ 1827) ∧
    ((generateMasterScheduleA cfgInterval).map (·.date) =
        (dateRange 20094 20098).map formatDate ∧
     (generateMasterScheduleB cfgInterval).map (·.date) =
        (dateRange 20094 20098).map formatDate) :=
  ⟨⟨by decide, by decide, by decide, by decide⟩,
   schedule_dates_exact cfgInterval 20094 20098 (by decide) (by decide) (by decide)
     (by decide)⟩

/-- C10 witness: `week_numbering_continuous` instantiated at the concrete
two-week term with a phase boundary inside it. -/
theorem week_numbering_continuous_witness :
    (parseISO cfgWeeks.startDate = some 20094 ∧
     parseISO cfgWeeks.endDate = some 20105 ∧
     (20094 : Int) ≤ 20105 ∧ ((20105 : Int) - 20094).toNat ≤ 1827) ∧
    ((∀ i (hi : i < (generateMasterScheduleA cfgWeeks).length),
        ((generateMasterScheduleA cfgWeeks).get ⟨i, hi⟩).weekNumber =
          ((i / 7 : Nat) : Int) + 1 ∧
        ((generateMasterScheduleA cfgWeeks).get ⟨i, hi⟩).dayInWeek =
          ((i % 7 : Nat) : Int) + 1) ∧
     (∀ i (hi : i < (generateMasterScheduleB cfgWeeks).length),
        ((generateMasterScheduleB cfgWeeks).get ⟨i, hi⟩).weekNumber =
          ((i / 7 : Nat) : Int) + 1 ∧
        ((generateMasterScheduleB cfgWeeks).get ⟨i, hi⟩).dayInWeek =
          ((i % 7 : Nat) : Int) + 1)) :=
  ⟨⟨by decide, by decide, by decide, by decide⟩,
   week_numbering_continuous cfgWeeks 20094 20105 (by decide) (by decide) (by decide)
     (by decide)⟩

/-- C3 witness: `holiday_precedence` instantiated at the generated holiday
row of the concrete three-day term. -/
theorem holiday_precedence_witness :
    ((rowHoliday ∈ generateMasterScheduleA cfgHoliday ∨
      rowHoliday ∈ generateMasterScheduleB cfgHoliday) ∧
     rowHoliday.date ∈ holidaySet cfgHoliday) ∧
    (rowHoliday.status = Status.holiday ∧
     rowHoliday.reason = jsOrStr (holidayMapGet cfgHoliday rowHoliday.date) "Holiday" ∧
     ∀ p ∈ rowHoliday.slotMappings, p.2.type = SlotType.empty) :=
  ⟨⟨Or.inl (by decide), by decide⟩,
   holiday_precedence cfgHoliday rowHoliday (Or.inl (by decide)) (by decide)⟩

/-- C4 witness: `lu_sequence` instantiated at the concrete three-Monday term
tracking `subLU` (two learning units, so the third Monday overflows). -/
theorem lu_sequence_witness :
    (cfgLU.subjects.find? (fun x => x.id == subLU.id) = some subLU ∧
     0 < subLU.totalLUs) ∧
    ((∃ M, occsA cfgLU subLU.id (generateMasterScheduleA cfgLU) =
        (List.range M).map (fun j => trackedSlotA subLU (j + 1))) ∧
     (∃ M, occsB subLU.id (generateMasterScheduleB cfgLU) =
        (List.range M).map (fun j => trackedSlotB subLU (j + 1))) ∧
     (∀ n, 1 ≤ n → n ≤ subLU.totalLUs →
        (trackedSlotA subLU n).label = subLU.name ++ " - LU " ++ toString n ∧
        (trackedSlotB subLU n).label = subLU.name ++ " - LU " ++ toString n ∧
        (trackedSlotB subLU n).luNumber = some n) ∧
     (∀ n, subLU.totalLUs < n →
        trackedSlotA subLU n =
          { type := .subject, label := subLU.name ++ " - completed",
            color := some "#94a3b8", subjectId := none, luNumber := none,
            courseId := none } ∧
        trackedSlotB subLU n =
          { type := .subject, label := subLU.name ++ " - completed",
            color := some "#94a3b8", subjectId := some subLU.id, luNumber := none,
            courseId := subLU.courseId })) :=
  ⟨⟨by decide, by decide⟩, lu_sequence cfgLU subLU (by decide) (by decide)⟩

end SemesterFlow
